import Mathlib

/- Shallow embedding of the python8080 Intel 8080 emulator
   (src/emu8080/system_state_8080.py and src/emu8080/emulator_8080.py)
   and of its disassembler (src/disassembler/disassemble8080.py and
   src/disassembler/instruction_info_8080.py).

   Python integers are modelled as Int.  Python's bitwise operators on
   unbounded two's-complement integers are modelled by the computable
   functions pyAnd, pyOr, pyXor, pyNot below; x << k is written x * 2^k
   and x >> k is Int.shiftRight (both agree with Python's floor
   semantics).  The 65536-entry memory list is a function Nat → Int read
   and written through Python's list-index semantics (a negative index
   counts from the end once; anything outside [-65536, 65536) raises
   IndexError).  Every operation that can raise a Python exception
   returns an Option, with none standing for the raised exception:
   IndexError on a bad memory index, KeyError on a register-dictionary
   lookup with the pseudo-register name m, TypeError when the opcode
   table yields a string (an unimplemented instruction) instead of a
   callable. -/

namespace Emu8080

/-- Python's bitwise AND on unbounded two's-complement integers.
On the negative side Int.negSucc m stands for the bit pattern of the
complement of m, so for example ofNat-with-negSucc keeps exactly the
bits of the nonnegative side that the complement has set. -/
def pyAnd : Int → Int → Int
  | .ofNat m, .ofNat n => .ofNat (m &&& n)
  | .ofNat m, .negSucc n => .ofNat (m - (m &&& n))
  | .negSucc m, .ofNat n => .ofNat (n - (n &&& m))
  | .negSucc m, .negSucc n => .negSucc (m ||| n)

/-- Python's bitwise OR on unbounded two's-complement integers. -/
def pyOr : Int → Int → Int
  | .ofNat m, .ofNat n => .ofNat (m ||| n)
  | .ofNat m, .negSucc n => .negSucc (n - (n &&& m))
  | .negSucc m, .ofNat n => .negSucc (m - (m &&& n))
  | .negSucc m, .negSucc n => .negSucc (m &&& n)

/-- Python's bitwise XOR on unbounded two's-complement integers. -/
def pyXor : Int → Int → Int
  | .ofNat m, .ofNat n => .ofNat (m ^^^ n)
  | .ofNat m, .negSucc n => .negSucc (m ^^^ n)
  | .negSucc m, .ofNat n => .negSucc (m ^^^ n)
  | .negSucc m, .negSucc n => .ofNat (m ^^^ n)

/-- Python's bitwise complement: ~x = -x - 1. -/
def pyNot (x : Int) : Int := -x - 1

/-- Two's-complement normaliser _get_int_TC of system_state_8080.py:
a negative value is replaced by -(|value| & max_size) and the result is
reduced modulo max_size + 1 (Python's % is Euclidean for a positive
modulus, as is Lean's % on Int). -/
def get_int_TC (value : Int) (max_size : Int := 255) : Int :=
  (if value < 0 then -(pyAnd (Int.ofNat value.natAbs) max_size) else value) % (max_size + 1)

/-- Modelled from the spec: has_even_parity of system_state_8080.py
looks the normalised byte up in parity_dict, imported from
data.precalculated, a module that is not under src/.  Per the spec
(sections 3, 4.2 and 8) the table realises even parity: the flag is
true exactly when the number of 1-bits of the byte is even.  The
normalisation through _get_int_TC is the source's. -/
def has_even_parity (value : Int) : Bool :=
  ((List.range 8).foldl (fun acc i => acc + ((get_int_TC value 255).toNat >>> i) % 2) 0) % 2 == 0

/-- Register names: the keys of the _registers dictionary of
SystemState, plus the pseudo-register name m that several instruction
functions receive and compare against; looking m up in the register
dictionary raises a KeyError, so the register accessors return none
for it. -/
inductive Reg where
  | a | b | c | d | e | h | l | sp | pc | m
deriving DecidableEq

/-- Flag names: the keys of the _flags dictionary of SystemState. -/
inductive Flag where
  | z | s | p | cy | ac | interrupt_enabled
deriving DecidableEq

/-- The CPU state of system_state_8080.py: seven 8-bit registers, SP
and PC, the five condition flags plus interrupt_enabled, and the
65536-entry memory list.  Register and memory cells are Int because
Python stores whatever integer is assigned; increment_register and
decrement_register in particular store unnormalised values. -/
structure SystemState where
  a : Int
  b : Int
  c : Int
  d : Int
  e : Int
  h : Int
  l : Int
  sp : Int
  pc : Int
  z : Bool
  s : Bool
  p : Bool
  cy : Bool
  ac : Bool
  interrupt_enabled : Bool
  memory : Nat → Int

/-- Python list indexing into the 65536-entry memory list: a negative
index counts from the end once; anything outside [-65536, 65536)
raises IndexError (none). -/
def pyIndex (i : Int) : Option Nat :=
  if 0 ≤ i then
    if i < 65536 then some i.toNat else none
  else
    if -65536 ≤ i then some (i + 65536).toNat else none

/-- Read self._memory[i] with Python index semantics. -/
def readMem (st : SystemState) (i : Int) : Option Int :=
  (pyIndex i).map st.memory

/-- Write self._memory[i] = v with Python index semantics. -/
def writeMem (st : SystemState) (i : Int) (v : Int) : Option SystemState :=
  (pyIndex i).map fun k =>
    { st with memory := fun j => if j = k then v else st.memory j }

/-- get_register_value: reads the _registers dictionary; the
pseudo-register name m is not a key (KeyError). -/
def get_register_value (st : SystemState) : Reg → Option Int
  | .a => some st.a
  | .b => some st.b
  | .c => some st.c
  | .d => some st.d
  | .e => some st.e
  | .h => some st.h
  | .l => some st.l
  | .sp => some st.sp
  | .pc => some st.pc
  | .m => none

/-- Raw assignment to a _registers entry, with no normalisation: the
building block for set_register_copy, increment_register and
decrement_register, which assign directly in the source. -/
def set_register_raw (st : SystemState) : Reg → Int → Option SystemState
  | .a, v => some { st with a := v }
  | .b, v => some { st with b := v }
  | .c, v => some { st with c := v }
  | .d, v => some { st with d := v }
  | .e, v => some { st with e := v }
  | .h, v => some { st with h := v }
  | .l, v => some { st with l := v }
  | .sp, v => some { st with sp := v }
  | .pc, v => some { st with pc := v }
  | .m, _ => none

/-- set_register_copy: _registers[to] = _registers[from], raw. -/
def set_register_copy (st : SystemState) (register_to register_from : Reg) :
    Option SystemState := do
  let v ← get_register_value st register_from
  set_register_raw st register_to v

/-- set_register_value: stores the value normalised with _get_int_TC,
to 16 bits for pc and sp and to 8 bits otherwise. -/
def set_register_value (st : SystemState) (register_name : Reg) (value : Int) :
    Option SystemState :=
  if register_name = .pc ∨ register_name = .sp then
    set_register_raw st register_name (get_int_TC value 65535)
  else
    set_register_raw st register_name (get_int_TC value 255)

/-- get_register_pair_value: (high << 8) | low on the raw contents. -/
def get_register_pair_value (st : SystemState) (register_hi register_lo : Reg) :
    Option Int := do
  let hi ← get_register_value st register_hi
  let lo ← get_register_value st register_lo
  pure (pyOr (hi * 256) lo)

/-- set_register_pair_value: the two halves are normalised to bytes
and stored; (value & 0xff00) >> 8 is written as a floor division by 256
of the nonnegative masked value. -/
def set_register_pair_value (st : SystemState) (value : Int)
    (register_hi register_lo : Reg) : Option SystemState := do
  let st ← set_register_raw st register_hi (get_int_TC (pyAnd value 0xff00 / 256))
  set_register_raw st register_lo (get_int_TC (pyAnd value 0x00ff))

/-- get_current_opcode: the memory byte at PC. -/
def get_current_opcode (st : SystemState) : Option Int :=
  readMem st st.pc

/-- get_stack_top: the memory byte at SP. -/
def get_stack_top (st : SystemState) : Option Int :=
  readMem st st.sp

/-- get_memory_by_registers: the memory byte addressed by a register
pair, (regs[hi] << 8) | regs[lo]. -/
def get_memory_by_registers (st : SystemState) (register_hi register_lo : Reg) :
    Option Int := do
  let hi ← get_register_value st register_hi
  let lo ← get_register_value st register_lo
  readMem st (pyOr (hi * 256) lo)

/-- get_memory_by_address: the memory byte at a discrete address. -/
def get_memory_by_address (st : SystemState) (address : Int) : Option Int :=
  readMem st address

/-- get_memory_word_immediate: (memory[pc+2] << 8) | memory[pc+1]. -/
def get_memory_word_immediate (st : SystemState) : Option Int := do
  let hi ← readMem st (st.pc + 2)
  let lo ← readMem st (st.pc + 1)
  pure (pyOr (hi * 256) lo)

/-- set_memory_by_registers: stores the normalised byte at the address
given by a register pair. -/
def set_memory_by_registers (st : SystemState) (value : Int)
    (register_hi register_lo : Reg) : Option SystemState := do
  let hi ← get_register_value st register_hi
  let lo ← get_register_value st register_lo
  writeMem st (pyOr (hi * 256) lo) (get_int_TC value 255)

/-- set_memory_by_address: stores the normalised byte at the address. -/
def set_memory_by_address (st : SystemState) (value : Int) (address : Int) :
    Option SystemState :=
  writeMem st address (get_int_TC value 255)

/-- store_register_at_address: stores the raw register contents at the
address, with no normalisation (unlike set_memory_by_address). -/
def store_register_at_address (st : SystemState) (register : Reg) (address : Int) :
    Option SystemState := do
  let v ← get_register_value st register
  writeMem st address v

/-- set_stack_top: stores the normalised byte at address SP. -/
def set_stack_top (st : SystemState) (value : Int) : Option SystemState :=
  writeMem st st.sp (get_int_TC value 255)

/-- get_memory_by_offset: the memory byte at pc + offset. -/
def get_memory_by_offset (st : SystemState) (offset : Int) : Option Int :=
  readMem st (st.pc + offset)

/-- set_flags: updates the selected flags from a pre-normalised wider
integer.  The branch for ac is commented out in the source, so ac is
never updated here even when requested. -/
def set_flags (st : SystemState) (value : Int) (target_flags : List Flag) :
    SystemState :=
  let st := if target_flags.contains .z then
    { st with z := pyAnd value 0xff == 0 } else st
  let st := if target_flags.contains .s then
    { st with s := pyAnd value 128 != 0 } else st
  let st := if target_flags.contains .p then
    { st with p := has_even_parity value } else st
  let st := if target_flags.contains .cy then
    { st with cy := decide (value > 0xff) } else st
  st

/-- set_single_flag: sets one flag to the truthiness of the value; all
call sites below compute the Python truthiness of what they pass. -/
def set_single_flag (st : SystemState) (target_flag : Flag) (value : Bool) :
    SystemState :=
  match target_flag with
  | .z => { st with z := value }
  | .s => { st with s := value }
  | .p => { st with p := value }
  | .cy => { st with cy := value }
  | .ac => { st with ac := value }
  | .interrupt_enabled => { st with interrupt_enabled := value }

/-- get_flag. -/
def get_flag (st : SystemState) : Flag → Bool
  | .z => st.z
  | .s => st.s
  | .p => st.p
  | .cy => st.cy
  | .ac => st.ac
  | .interrupt_enabled => st.interrupt_enabled

/-- Python bool as the int it becomes in arithmetic. -/
def boolInt (b : Bool) : Int := if b then 1 else 0

/-- increment_register: adds 1 to the raw register contents, with no
normalisation. -/
def increment_register (st : SystemState) (name : Reg) : Option SystemState := do
  let v ← get_register_value st name
  set_register_raw st name (v + 1)

/-- decrement_register: subtracts 1 from the raw register contents,
with no normalisation. -/
def decrement_register (st : SystemState) (name : Reg) : Option SystemState := do
  let v ← get_register_value st name
  set_register_raw st name (v - 1)

/-- increase_pc: adds the amount to PC, with no normalisation. -/
def increase_pc (st : SystemState) (amount : Int) : SystemState :=
  { st with pc := st.pc + amount }

/-- The state as created by system_state_8080.py: memory, registers
and flags all zero / false. -/
def initial_state : SystemState :=
  { a := 0, b := 0, c := 0, d := 0, e := 0, h := 0, l := 0, sp := 0, pc := 0,
    z := false, s := false, p := false, cy := false, ac := false,
    interrupt_enabled := false, memory := fun _ => 0 }

/-- load_program: writes the normalised bytes into memory starting at
the given address, one cell per byte. -/
def load_program : SystemState → List Int → Int → Option SystemState
  | st, [], _ => some st
  | st, x :: rest, address => do
    let st ← writeMem st address (get_int_TC x 255)
    load_program st rest (address + 1)

end Emu8080

namespace Emu8080

/- Instruction set functions of emulator_8080.py.  Each takes the
   state last and returns the new state together with the amount by
   which emulate_operation will increase the PC afterwards. -/

/-- nop: no operation. -/
def nop (st : SystemState) : Option (SystemState × Int) :=
  some (st, 1)

/-- mov: copy register to register. -/
def mov (register_to register_from : Reg) (st : SystemState) :
    Option (SystemState × Int) := do
  let st ← set_register_copy st register_to register_from
  pure (st, 1)

/-- mov_m: load the byte at HL into the target register. -/
def mov_m (register_to : Reg) (st : SystemState) : Option (SystemState × Int) := do
  let value ← get_memory_by_registers st .h .l
  let st ← set_register_value st register_to value
  pure (st, 1)

/-- mov_to_m: store the target register at the address HL. -/
def mov_to_m (target_register : Reg) (st : SystemState) :
    Option (SystemState × Int) := do
  let value ← get_register_value st target_register
  let st ← set_memory_by_registers st value .h .l
  pure (st, 1)

/-- lxi: load the two immediate bytes into a register pair. -/
def lxi (high_target low_target : Reg) (st : SystemState) :
    Option (SystemState × Int) := do
  let high_data ← get_memory_by_offset st 2
  let low_data ← get_memory_by_offset st 1
  let st ← set_register_value st high_target high_data
  let st ← set_register_value st low_target low_data
  pure (st, 3)

/-- get_high_byte: (data & 0xff00) >> 8, written as a floor division
of the nonnegative masked value. -/
def get_high_byte (data : Int) : Int :=
  pyAnd data 0xff00 / 256

/-- get_low_byte: data & 0x00ff. -/
def get_low_byte (data : Int) : Int :=
  pyAnd data 0x00ff

/-- get_16_bit_from_byte_pair: (high_byte << 8) | low_byte. -/
def get_16_bit_from_byte_pair (high_byte low_byte : Int) : Int :=
  pyOr (high_byte * 256) low_byte

/-- lxi_sp: load the immediate word into SP. -/
def lxi_sp (st : SystemState) : Option (SystemState × Int) := do
  let high_data ← get_memory_by_offset st 2
  let low_data ← get_memory_by_offset st 1
  let st ← set_register_value st .sp (get_16_bit_from_byte_pair high_data low_data)
  pure (st, 3)

/-- add: register + register, all five flags from the wide result. -/
def add (register_to register_from : Reg) (st : SystemState) :
    Option (SystemState × Int) := do
  let result := (← get_register_value st register_to)
      + (← get_register_value st register_from)
  let st ← set_register_value st register_to result
  let st := set_flags st result [.z, .s, .p, .cy, .ac]
  pure (st, 1)

/-- add_m: register + memory byte at HL. -/
def add_m (register_to : Reg) (st : SystemState) : Option (SystemState × Int) := do
  let result := (← get_register_value st register_to)
      + (← get_memory_by_registers st .h .l)
  let st ← set_register_value st register_to result
  let st := set_flags st result [.z, .s, .p, .cy, .ac]
  pure (st, 1)

/-- adc: register + register + carry. -/
def adc (register_to register_from : Reg) (st : SystemState) :
    Option (SystemState × Int) := do
  let result := (← get_register_value st register_to)
      + (← get_register_value st register_from)
      + boolInt (get_flag st .cy)
  let st ← set_register_value st register_to result
  let st := set_flags st result [.z, .s, .p, .cy, .ac]
  pure (st, 1)

/-- adc_m: register + memory byte at HL + carry. -/
def adc_m (register_to : Reg) (st : SystemState) : Option (SystemState × Int) := do
  let result := (← get_register_value st register_to)
      + (← get_memory_by_registers st .h .l)
      + boolInt (get_flag st .cy)
  let st ← set_register_value st register_to result
  let st := set_flags st result [.z, .s, .p, .cy, .ac]
  pure (st, 1)

/-- adi: register + immediate byte. -/
def adi (register_to : Reg) (st : SystemState) : Option (SystemState × Int) := do
  let byte ← get_memory_by_offset st 1
  let result := (← get_register_value st register_to) + byte
  let st ← set_register_value st register_to result
  let st := set_flags st result [.z, .s, .p, .cy, .ac]
  pure (st, 2)

/-- aci: register + immediate byte + carry. -/
def aci (register_to : Reg) (st : SystemState) : Option (SystemState × Int) := do
  let byte ← get_memory_by_offset st 1
  let result := (← get_register_value st register_to) + byte
      + boolInt (get_flag st .cy)
  let st ← set_register_value st register_to result
  let st := set_flags st result [.z, .s, .p, .cy, .ac]
  pure (st, 2)

/-- sub: the borrow flag is taken from subtrahend > minuend and the
difference is carried out as minuend + ((-subtrahend) & 0xff). -/
def sub (register_to register_from : Reg) (st : SystemState) :
    Option (SystemState × Int) := do
  let subtrahend ←
    if register_from = .m then get_memory_by_registers st .h .l
    else get_register_value st register_from
  let carry := decide (subtrahend > (← get_register_value st register_to))
  let subtrahend := pyAnd (-subtrahend) 0xff
  let result := (← get_register_value st register_to) + subtrahend
  let st ← set_register_value st register_to result
  let st := set_flags st result [.z, .s, .p, .ac]
  let st := set_single_flag st .cy carry
  pure (st, 1)

/-- sub_m: like sub with the subtrahend read at HL. -/
def sub_m (register_to : Reg) (st : SystemState) : Option (SystemState × Int) := do
  let subtrahend ← get_memory_by_registers st .h .l
  let carry := decide (subtrahend > (← get_register_value st register_to))
  let subtrahend := pyAnd (-subtrahend) 0xff
  let result := (← get_register_value st register_to) + subtrahend
  let st ← set_register_value st register_to result
  let st := set_flags st result [.z, .s, .p, .ac]
  let st := set_single_flag st .cy carry
  pure (st, 1)

/-- sbb: subtract with borrow; the carry flag is captured from the
subtrahend alone, before the stored carry is subtracted from the
result. -/
def sbb (register_to register_from : Reg) (st : SystemState) :
    Option (SystemState × Int) := do
  let subtrahend ← get_register_value st register_from
  let carry := decide (subtrahend > (← get_register_value st register_to))
  let subtrahend := pyAnd (-subtrahend) 0xff
  let result := (← get_register_value st register_to) + subtrahend
      - boolInt (get_flag st .cy)
  let st ← set_register_value st register_to result
  let st := set_flags st result [.z, .s, .p, .ac]
  let st := set_single_flag st .cy carry
  pure (st, 1)

/-- sbb_m: sbb with the subtrahend read at HL. -/
def sbb_m (register_to : Reg) (st : SystemState) : Option (SystemState × Int) := do
  let subtrahend ← get_memory_by_registers st .h .l
  let carry := decide (subtrahend > (← get_register_value st register_to))
  let subtrahend := pyAnd (-subtrahend) 0xff
  let result := (← get_register_value st register_to) + subtrahend
      - boolInt (get_flag st .cy)
  let st ← set_register_value st register_to result
  let st := set_flags st result [.z, .s, .p, .ac]
  let st := set_single_flag st .cy carry
  pure (st, 1)

/-- sui: subtract the immediate byte. -/
def sui (register_to : Reg) (st : SystemState) : Option (SystemState × Int) := do
  let subtrahend ← get_memory_by_offset st 1
  let carry := decide (subtrahend > (← get_register_value st register_to))
  let subtrahend := pyAnd (-subtrahend) 0xff
  let result := (← get_register_value st register_to) + subtrahend
  let st ← set_register_value st register_to result
  let st := set_flags st result [.z, .s, .p, .ac]
  let st := set_single_flag st .cy carry
  pure (st, 2)

/-- sbi: subtract the immediate byte and the stored carry; the carry
flag is captured from the subtrahend alone. -/
def sbi (register_to : Reg) (st : SystemState) : Option (SystemState × Int) := do
  let subtrahend ← get_memory_by_offset st 1
  let carry := decide (subtrahend > (← get_register_value st register_to))
  let subtrahend := pyAnd (-subtrahend) 0xff
  let result := (← get_register_value st register_to) + subtrahend
      - boolInt (get_flag st .cy)
  let st ← set_register_value st register_to result
  let st := set_flags st result [.z, .s, .p, .ac]
  let st := set_single_flag st .cy carry
  pure (st, 2)

/-- cmp: flags of the subtraction, the register is not written. -/
def cmp (register_to register_from : Reg) (st : SystemState) :
    Option (SystemState × Int) := do
  let subtrahend ← get_register_value st register_from
  let carry := decide (subtrahend > (← get_register_value st register_to))
  let subtrahend := pyAnd (-subtrahend) 0xff
  let result := (← get_register_value st register_to) + subtrahend
  let st := set_flags st result [.z, .s, .p, .ac]
  let st := set_single_flag st .cy carry
  pure (st, 1)

/-- cmp_m: compare with the memory byte at HL. -/
def cmp_m (register : Reg) (st : SystemState) : Option (SystemState × Int) := do
  let subtrahend ← get_memory_by_registers st .h .l
  let carry := decide (subtrahend > (← get_register_value st register))
  let subtrahend := pyAnd (-subtrahend) 0xff
  let result := (← get_register_value st register) + subtrahend
  let st := set_flags st result [.z, .s, .p, .ac]
  let st := set_single_flag st .cy carry
  pure (st, 1)

/-- cmi: compare with the immediate byte. -/
def cmi (register : Reg) (st : SystemState) : Option (SystemState × Int) := do
  let subtrahend ← get_memory_by_offset st 1
  let carry := decide (subtrahend > (← get_register_value st register))
  let subtrahend := pyAnd (-subtrahend) 0xff
  let result := (← get_register_value st register) + subtrahend
  let st := set_flags st result [.z, .s, .p, .ac]
  let st := set_single_flag st .cy carry
  pure (st, 2)

/-- save: store a register at the address given by a register pair. -/
def save (register_from register_high register_low : Reg) (st : SystemState) :
    Option (SystemState × Int) := do
  let value ← get_register_value st register_from
  let st ← set_memory_by_registers st value register_high register_low
  pure (st, 1)

/-- load_r: load (regs[hi] << 8) | regs[lo] into the target register;
return 0 when the target is pc. -/
def load_r (target_register high_byte low_byte : Reg) (st : SystemState) :
    Option (SystemState × Int) := do
  let value := pyOr ((← get_register_value st high_byte) * 256)
      (← get_register_value st low_byte)
  let st ← set_register_value st target_register value
  if target_register = .pc then pure (st, 0) else pure (st, 1)

/-- load_m: load the byte addressed by a register pair into the target
register; return 0 when the target is pc. -/
def load_m (target_register high_byte low_byte : Reg) (st : SystemState) :
    Option (SystemState × Int) := do
  let v ← get_memory_by_registers st high_byte low_byte
  let st ← set_register_value st target_register v
  if target_register = .pc then pure (st, 0) else pure (st, 1)

/-- inr_m: increment the memory byte at HL. -/
def inr_m (st : SystemState) : Option (SystemState × Int) := do
  let result ← get_memory_by_registers st .h .l
  let result := result + 1
  let st ← set_memory_by_registers st result .h .l
  let st := set_flags st result [.z, .s, .p, .ac]
  pure (st, 1)

/-- inr: increment a register, or the memory byte at HL for m. -/
def inr (target_register : Reg) (st : SystemState) : Option (SystemState × Int) := do
  if target_register = .m then
    let (st, _) ← inr_m st
    pure (st, 1)
  else
    let result := (← get_register_value st target_register) + 1
    let st ← set_register_value st target_register result
    let st := set_flags st result [.z, .s, .p, .ac]
    pure (st, 1)

/-- dcr: decrement a register through decrement_register (which does
not normalise) and set Z, S, P from the stored value. -/
def dcr (target_register : Reg) (st : SystemState) : Option (SystemState × Int) := do
  let st ← decrement_register st target_register
  let v ← get_register_value st target_register
  let st := set_flags st v [.z, .s, .p, .ac]
  pure (st, 1)

/-- dcr_m: decrement the memory byte at HL. -/
def dcr_m (st : SystemState) : Option (SystemState × Int) := do
  let result ← get_memory_by_registers st .h .l
  let result := result - 1
  let st ← set_memory_by_registers st result .h .l
  let st := set_flags st result [.z, .s, .p, .ac]
  pure (st, 1)

/-- mvi: load the immediate byte into the target register. -/
def mvi (target_register : Reg) (st : SystemState) : Option (SystemState × Int) := do
  let byte ← get_memory_by_offset st 1
  let st ← set_register_value st target_register byte
  pure (st, 2)

/-- mvi_m: store the immediate byte at the address HL. -/
def mvi_m (st : SystemState) : Option (SystemState × Int) := do
  let byte ← get_memory_by_offset st 1
  let st ← set_memory_by_registers st byte .h .l
  pure (st, 2)

/-- jmp: PC is set to the immediate word. -/
def jmp (st : SystemState) : Option (SystemState × Int) := do
  let address ← get_memory_word_immediate st
  let st ← set_register_value st .pc address
  pure (st, 0)

/-- jmp_flag: jump when the flag is true, else advance by 3. -/
def jmp_flag (condition : Flag) (st : SystemState) : Option (SystemState × Int) := do
  if get_flag st condition then
    let address ← get_memory_word_immediate st
    let st ← set_register_value st .pc address
    pure (st, 0)
  else
    pure (st, 3)

/-- jmp_not_flag: jump when the flag is false, else advance by 3. -/
def jmp_not_flag (condition : Flag) (st : SystemState) :
    Option (SystemState × Int) := do
  if ¬get_flag st condition then
    let address ← get_memory_word_immediate st
    let st ← set_register_value st .pc address
    pure (st, 0)
  else
    pure (st, 3)

/-- Argument of push: either a pair of register names (the PUSH rp
table entries) or a pair of discrete bytes (push_psw, call, rst,
xthl). -/
inductive ByteArg where
  | reg (r : Reg)
  | val (v : Int)

/-- push: decrement SP, store the high byte, decrement SP, store the
low byte.  The source converts both arguments through the register
dictionary when the first is a string; a mixed pair would raise
(KeyError on the int, or TypeError normalising the string) and does
not occur at any call site. -/
def push (high_byte low_byte : ByteArg) (st : SystemState) :
    Option (SystemState × Int) := do
  let (hb, lb) ←
    match high_byte, low_byte with
    | .reg rh, .reg rl => do
      let hv ← get_register_value st rh
      let lv ← get_register_value st rl
      pure (hv, lv)
    | .val vh, .val vl => pure ((vh : Int), (vl : Int))
    | .reg _, .val _ => none
    | .val _, .reg _ => none
  let st ← decrement_register st .sp
  let st ← set_stack_top st hb
  let st ← decrement_register st .sp
  let st ← set_stack_top st lb
  pure (st, 1)

/-- push_psw: the flag byte is assembled as s z 0 ac 0 p 1 cy and
pushed below A. -/
def push_psw (st : SystemState) : Option (SystemState × Int) := do
  let high_byte ← get_register_value st .a
  let low_byte : Int := 2
  let low_byte := pyXor low_byte (boolInt (get_flag st .cy) * 1)
  let low_byte := pyXor low_byte (boolInt (get_flag st .p) * 4)
  let low_byte := pyXor low_byte (boolInt (get_flag st .ac) * 16)
  let low_byte := pyXor low_byte (boolInt (get_flag st .z) * 64)
  let low_byte := pyXor low_byte (boolInt (get_flag st .s) * 128)
  let (st, _) ← push (.val high_byte) (.val low_byte) st
  pure (st, 1)

/-- pop: low target from the stack top, then high target. -/
def pop (high_target low_target : Reg) (st : SystemState) :
    Option (SystemState × Int) := do
  let v ← get_stack_top st
  let st ← set_register_value st low_target v
  let st ← increment_register st .sp
  let v2 ← get_stack_top st
  let st ← set_register_value st high_target v2
  let st ← increment_register st .sp
  pure (st, 1)

/-- pop_psw: the flag byte is decoded as s z 0 ac 0 p 1 cy. -/
def pop_psw (st : SystemState) : Option (SystemState × Int) := do
  let flags_byte ← get_stack_top st
  let st ← increment_register st .sp
  let v ← get_stack_top st
  let st ← set_register_value st .a v
  let st ← increment_register st .sp
  let st := set_single_flag st .cy (pyAnd flags_byte 1 != 0)
  let st := set_single_flag st .p (pyAnd flags_byte 4 != 0)
  let st := set_single_flag st .ac (pyAnd flags_byte 16 != 0)
  let st := set_single_flag st .z (pyAnd flags_byte 64 != 0)
  let st := set_single_flag st .s (pyAnd flags_byte 128 != 0)
  pure (st, 1)

/-- call: push PC + 3 and jump to the immediate word. -/
def call (st : SystemState) : Option (SystemState × Int) := do
  let target ← get_memory_word_immediate st
  let st := increase_pc st 3
  let high_byte := get_high_byte st.pc
  let low_byte := get_low_byte st.pc
  let (st, _) ← push (.val high_byte) (.val low_byte) st
  let st ← set_register_value st .pc target
  pure (st, 0)

/-- ret: pop the return address into PC. -/
def ret (st : SystemState) : Option (SystemState × Int) := do
  let low_data ← get_stack_top st
  let st ← increment_register st .sp
  let high_data ← get_stack_top st
  let st ← increment_register st .sp
  let st ← set_register_value st .pc (get_16_bit_from_byte_pair high_data low_data)
  pure (st, 0)

/-- call_flag: call when the flag is true, else advance by 3. -/
def call_flag (condition : Flag) (st : SystemState) : Option (SystemState × Int) := do
  if get_flag st condition then
    let (st, _) ← call st
    pure (st, 0)
  else
    pure (st, 3)

/-- call_not_flag: call when the flag is false, else advance by 3. -/
def call_not_flag (condition : Flag) (st : SystemState) :
    Option (SystemState × Int) := do
  if ¬get_flag st condition then
    let (st, _) ← call st
    pure (st, 0)
  else
    pure (st, 3)

/-- ret_flag: return when the flag is true, else advance by 1. -/
def ret_flag (condition : Flag) (st : SystemState) : Option (SystemState × Int) := do
  if get_flag st condition then
    let (st, _) ← ret st
    pure (st, 0)
  else
    pure (st, 1)

/-- ret_not_flag: return when the flag is false, else advance by 1. -/
def ret_not_flag (condition : Flag) (st : SystemState) :
    Option (SystemState × Int) := do
  if ¬get_flag st condition then
    let (st, _) ← ret st
    pure (st, 0)
  else
    pure (st, 1)

/-- rst: push the current PC and jump to the target. -/
def rst (target : Int) (st : SystemState) : Option (SystemState × Int) := do
  let high_byte := get_high_byte st.pc
  let low_byte := get_low_byte st.pc
  let (st, _) ← push (.val high_byte) (.val low_byte) st
  let st ← set_register_value st .pc target
  pure (st, 0)

/-- ana: A := A & operand, all five flags from the result. -/
def ana (register_from : Reg) (st : SystemState) : Option (SystemState × Int) := do
  let result ← get_register_value st .a
  let result ←
    if register_from = .m then
      pure (pyAnd result (← get_memory_by_registers st .h .l))
    else
      pure (pyAnd result (← get_register_value st register_from))
  let st ← set_register_value st .a result
  let st := set_flags st result [.z, .s, .p, .cy, .ac]
  pure (st, 1)

/-- ani: A := A & immediate; CY is cleared explicitly. -/
def ani (st : SystemState) : Option (SystemState × Int) := do
  let byte ← get_memory_by_offset st 1
  let result := pyAnd (← get_register_value st .a) byte
  let st ← set_register_value st .a result
  let st := set_flags st result [.z, .s, .p]
  let st := set_single_flag st .cy false
  pure (st, 2)

/-- xra: A := A ^ operand. -/
def xra (register_from : Reg) (st : SystemState) : Option (SystemState × Int) := do
  let result ← get_register_value st .a
  let result ←
    if register_from = .m then
      pure (pyXor result (← get_memory_by_registers st .h .l))
    else
      pure (pyXor result (← get_register_value st register_from))
  let st ← set_register_value st .a result
  let st := set_flags st result [.z, .s, .p, .cy, .ac]
  pure (st, 1)

/-- xri: A := A ^ immediate. -/
def xri (st : SystemState) : Option (SystemState × Int) := do
  let byte ← get_memory_by_offset st 1
  let result := pyXor (← get_register_value st .a) byte
  let st ← set_register_value st .a result
  let st := set_flags st result [.z, .s, .p, .cy, .ac]
  pure (st, 2)

/-- ora: A := A | operand. -/
def ora (register_from : Reg) (st : SystemState) : Option (SystemState × Int) := do
  let result ← get_register_value st .a
  let result ←
    if register_from = .m then
      pure (pyOr result (← get_memory_by_registers st .h .l))
    else
      pure (pyOr result (← get_register_value st register_from))
  let st ← set_register_value st .a result
  let st := set_flags st result [.z, .s, .p, .cy, .ac]
  pure (st, 1)

/-- ori: A := A | immediate. -/
def ori (st : SystemState) : Option (SystemState × Int) := do
  let byte ← get_memory_by_offset st 1
  let result := pyOr (← get_register_value st .a) byte
  let st ← set_register_value st .a result
  let st := set_flags st result [.z, .s, .p, .cy, .ac]
  pure (st, 2)

/-- cma: A := ~A, no flags. -/
def cma (st : SystemState) : Option (SystemState × Int) := do
  let st ← set_register_value st .a (pyNot (← get_register_value st .a))
  pure (st, 1)

/-- addx: add mod_value to a register pair as a 16-bit value. -/
def addx (high_byte low_byte : Reg) (mod_value : Int) (st : SystemState) :
    Option (SystemState × Int) := do
  let bigval ← get_register_pair_value st high_byte low_byte
  let bigval := bigval + mod_value
  let st ← set_register_pair_value st bigval high_byte low_byte
  pure (st, 1)

/-- addx_sp: add mod_value to SP. -/
def addx_sp (mod_value : Int) (st : SystemState) : Option (SystemState × Int) := do
  let result := (← get_register_value st .sp) + mod_value
  let st ← set_register_value st .sp result
  pure (st, 1)

/-- rlc: rotate A left, old bit 7 into CY and bit 0. -/
def rlc (st : SystemState) : Option (SystemState × Int) := do
  let result ← get_register_value st .a
  let bit7 := pyAnd result 128 != 0
  let result := result * 2 + boolInt bit7
  let st := set_single_flag st .cy bit7
  let st ← set_register_value st .a result
  pure (st, 1)

/-- ral: rotate A left through CY. -/
def ral (st : SystemState) : Option (SystemState × Int) := do
  let result ← get_register_value st .a
  let bit7 := pyAnd result 128 != 0
  let result := result * 2 + boolInt (get_flag st .cy)
  let st := set_single_flag st .cy bit7
  let st ← set_register_value st .a result
  pure (st, 1)

/-- rrc: rotate A right, old bit 0 into CY and bit 7. -/
def rrc (st : SystemState) : Option (SystemState × Int) := do
  let result ← get_register_value st .a
  let bit0 := pyAnd result 1 != 0
  let result := Int.shiftRight result 1 + boolInt bit0 * 128
  let st := set_single_flag st .cy bit0
  let st ← set_register_value st .a result
  pure (st, 1)

/-- rar: rotate A right through CY. -/
def rar (st : SystemState) : Option (SystemState × Int) := do
  let result ← get_register_value st .a
  let bit0 := pyAnd result 1 != 0
  let result := Int.shiftRight result 1 + boolInt (get_flag st .cy) * 128
  let st := set_single_flag st .cy bit0
  let st ← set_register_value st .a result
  pure (st, 1)

/-- stc: set CY. -/
def stc (st : SystemState) : Option (SystemState × Int) :=
  some (set_single_flag st .cy true, 1)

/-- cmc: complement CY. -/
def cmc (st : SystemState) : Option (SystemState × Int) :=
  some (set_single_flag st .cy (¬get_flag st .cy), 1)

/-- set_interrupt_enabled: DI / EI. -/
def set_interrupt_enabled (new_bool : Bool) (st : SystemState) :
    Option (SystemState × Int) :=
  some (set_single_flag st .interrupt_enabled new_bool, 1)

/-- dad: HL := HL + register pair, CY from the 16-bit overflow. -/
def dad (high_byte low_byte : Reg) (st : SystemState) :
    Option (SystemState × Int) := do
  let result ← get_register_pair_value st .h .l
  let result := result + (← get_register_pair_value st high_byte low_byte)
  let st := set_single_flag st .cy (decide (result > 0xffff))
  let st ← set_register_pair_value st result .h .l
  pure (st, 1)

/-- dad_sp: HL := HL + SP. -/
def dad_sp (st : SystemState) : Option (SystemState × Int) := do
  let result ← get_register_pair_value st .h .l
  let result := result + (← get_register_value st .sp)
  let st := set_single_flag st .cy (decide (result > 0xffff))
  let st ← set_register_pair_value st result .h .l
  pure (st, 1)

/-- xchg: swap HL and DE. -/
def xchg (st : SystemState) : Option (SystemState × Int) := do
  let tmp ← get_register_value st .h
  let st ← set_register_copy st .h .d
  let st ← set_register_value st .d tmp
  let tmp ← get_register_value st .l
  let st ← set_register_copy st .l .e
  let st ← set_register_value st .e tmp
  pure (st, 1)

/-- xthl: exchange HL with the two bytes at the top of the stack. -/
def xthl (st : SystemState) : Option (SystemState × Int) := do
  let tmp_high ← get_register_value st .h
  let tmp_low ← get_register_value st .l
  let (st, _) ← pop .h .l st
  let (st, _) ← push (.val tmp_high) (.val tmp_low) st
  pure (st, 1)

/-- lda: A := memory at the immediate address. -/
def lda (st : SystemState) : Option (SystemState × Int) := do
  let address ← get_memory_word_immediate st
  let data ← get_memory_by_address st address
  let st ← set_register_value st .a data
  pure (st, 3)

/-- sta: store A at the immediate address (raw store). -/
def sta (st : SystemState) : Option (SystemState × Int) := do
  let address ← get_memory_word_immediate st
  let st ← store_register_at_address st .a address
  pure (st, 3)

/-- lhld: L := memory at the immediate address, H := the next byte. -/
def lhld (st : SystemState) : Option (SystemState × Int) := do
  let address ← get_memory_word_immediate st
  let st ← set_register_value st .l (← get_memory_by_address st address)
  let address := address + 1
  let st ← set_register_value st .h (← get_memory_by_address st address)
  pure (st, 3)

/-- shld: store L at the immediate address and H at the next byte. -/
def shld (st : SystemState) : Option (SystemState × Int) := do
  let address ← get_memory_word_immediate st
  let st ← store_register_at_address st .l address
  let address := address + 1
  let st ← store_register_at_address st .h address
  pure (st, 3)

/-- The IN placeholder: reads the port byte at pc + 1 and advances. -/
def pretend_read (st : SystemState) : Option (SystemState × Int) := do
  let _ ← get_memory_by_offset st 1
  pure (st, 2)

/-- The OUT placeholder: reads the port byte at pc + 1 and advances. -/
def pretend_write (st : SystemState) : Option (SystemState × Int) := do
  let _ ← get_memory_by_offset st 1
  pure (st, 2)

/-- daa: decimal adjust, exactly as coded: low-nibble fix with AC set
from the low-nibble carry, then high-nibble fix with CY set (and never
cleared) from the high-nibble carry; Z, S, P from the final value. -/
def daa (st : SystemState) : Option (SystemState × Int) := do
  let result ← get_register_value st .a
  let bottom_bits := pyAnd result 0x0f
  let (bottom_bits, result) :=
    if bottom_bits > 0x09 ∨ get_flag st .ac then
      (bottom_bits + 0x06, result + 0x06)
    else
      (bottom_bits, result)
  let st := set_single_flag st .ac (pyAnd bottom_bits 0x10 != 0)
  let top_bits := pyAnd result 0xf0
  let (top_bits, result) :=
    if top_bits > 0x90 ∨ get_flag st .cy then
      (top_bits + 0x60, result + 0x60)
    else
      (top_bits, result)
  let st ← set_register_value st .a result
  let st := if pyAnd top_bits 0x100 != 0 then set_single_flag st .cy true else st
  let st := set_flags st result [.z, .s, .p]
  pure (st, 1)

end Emu8080

namespace Emu8080

/-- An entry of the opcode table: either a callable instruction, or a
bare mnemonic string standing for an instruction that is yet to be
implemented (calling it raises TypeError). -/
inductive TableEntry where
  | op (f : SystemState → Option (SystemState × Int))
  | strEntry (mnemonic : String)

/-- Entries 0x0-0xf of instruction_dict_8080. -/
def instruction_table_0 : List TableEntry := [
  .op nop,  -- 0x00
  .op (lxi .b .c),  -- 0x01
  .op (save .a .b .c),  -- 0x02
  .op (addx .b .c 1),  -- 0x03
  .op (inr .b),  -- 0x04
  .op (dcr .b),  -- 0x05
  .op (mvi .b),  -- 0x06
  .op rlc,  -- 0x07
  .op nop,  -- 0x08
  .op (dad .b .c),  -- 0x09
  .op (load_m .a .b .c),  -- 0x0a
  .op (addx .b .c (-1)),  -- 0x0b
  .op (inr .c),  -- 0x0c
  .op (dcr .c),  -- 0x0d
  .op (mvi .c),  -- 0x0e
  .op rrc  -- 0x0f
]

/-- Entries 0x10-0x1f of instruction_dict_8080. -/
def instruction_table_1 : List TableEntry := [
  .op nop,  -- 0x10
  .op (lxi .d .e),  -- 0x11
  .op (save .a .d .e),  -- 0x12
  .op (addx .d .e 1),  -- 0x13
  .op (inr .d),  -- 0x14
  .op (dcr .d),  -- 0x15
  .op (mvi .d),  -- 0x16
  .op ral,  -- 0x17
  .op nop,  -- 0x18
  .op (dad .d .e),  -- 0x19
  .op (load_m .a .d .e),  -- 0x1a
  .op (addx .d .e (-1)),  -- 0x1b
  .op (inr .e),  -- 0x1c
  .op (dcr .e),  -- 0x1d
  .op (mvi .e),  -- 0x1e
  .op rar  -- 0x1f
]

/-- Entries 0x20-0x2f of instruction_dict_8080. -/
def instruction_table_2 : List TableEntry := [
  .strEntry "RIM",  -- 0x20
  .op (lxi .h .l),  -- 0x21
  .op shld,  -- 0x22
  .op (addx .h .l 1),  -- 0x23
  .op (inr .h),  -- 0x24
  .op (dcr .h),  -- 0x25
  .op (mvi .h),  -- 0x26
  .op daa,  -- 0x27
  .op nop,  -- 0x28
  .op (dad .h .l),  -- 0x29
  .op lhld,  -- 0x2a
  .op (addx .h .l (-1)),  -- 0x2b
  .op (inr .l),  -- 0x2c
  .op (dcr .l),  -- 0x2d
  .op (mvi .l),  -- 0x2e
  .op cma  -- 0x2f
]

/-- Entries 0x30-0x3f of instruction_dict_8080. -/
def instruction_table_3 : List TableEntry := [
  .strEntry "SIM",  -- 0x30
  .op lxi_sp,  -- 0x31
  .op sta,  -- 0x32
  .op (addx_sp 1),  -- 0x33
  .op (inr .m),  -- 0x34
  .op dcr_m,  -- 0x35
  .op mvi_m,  -- 0x36
  .op stc,  -- 0x37
  .op nop,  -- 0x38
  .op dad_sp,  -- 0x39
  .op lda,  -- 0x3a
  .op (addx_sp (-1)),  -- 0x3b
  .op (inr .a),  -- 0x3c
  .op (dcr .a),  -- 0x3d
  .op (mvi .a),  -- 0x3e
  .op cmc  -- 0x3f
]

/-- Entries 0x40-0x4f of instruction_dict_8080. -/
def instruction_table_4 : List TableEntry := [
  .op (mov .b .b),  -- 0x40
  .op (mov .b .c),  -- 0x41
  .op (mov .b .d),  -- 0x42
  .op (mov .b .e),  -- 0x43
  .op (mov .b .h),  -- 0x44
  .op (mov .b .l),  -- 0x45
  .op (mov_m .b),  -- 0x46
  .op (mov .b .a),  -- 0x47
  .op (mov .c .b),  -- 0x48
  .op (mov .c .c),  -- 0x49
  .op (mov .c .d),  -- 0x4a
  .op (mov .c .e),  -- 0x4b
  .op (mov .c .h),  -- 0x4c
  .op (mov .c .l),  -- 0x4d
  .op (mov_m .c),  -- 0x4e
  .op (mov .c .a)  -- 0x4f
]

/-- Entries 0x50-0x5f of instruction_dict_8080. -/
def instruction_table_5 : List TableEntry := [
  .op (mov .d .b),  -- 0x50
  .op (mov .d .c),  -- 0x51
  .op (mov .d .d),  -- 0x52
  .op (mov .d .e),  -- 0x53
  .op (mov .d .h),  -- 0x54
  .op (mov .d .l),  -- 0x55
  .op (mov_m .d),  -- 0x56
  .op (mov .d .a),  -- 0x57
  .op (mov .e .b),  -- 0x58
  .op (mov .e .c),  -- 0x59
  .op (mov .e .d),  -- 0x5a
  .op (mov .e .e),  -- 0x5b
  .op (mov .e .h),  -- 0x5c
  .op (mov .e .l),  -- 0x5d
  .op (mov_m .e),  -- 0x5e
  .op (mov .e .a)  -- 0x5f
]

/-- Entries 0x60-0x6f of instruction_dict_8080. -/
def instruction_table_6 : List TableEntry := [
  .op (mov .h .b),  -- 0x60
  .op (mov .h .c),  -- 0x61
  .op (mov .h .d),  -- 0x62
  .op (mov .h .e),  -- 0x63
  .op (mov .h .h),  -- 0x64
  .op (mov .h .l),  -- 0x65
  .op (mov_m .h),  -- 0x66
  .op (mov .h .a),  -- 0x67
  .op (mov .l .b),  -- 0x68
  .op (mov .l .c),  -- 0x69
  .op (mov .l .d),  -- 0x6a
  .op (mov .l .e),  -- 0x6b
  .op (mov .l .h),  -- 0x6c
  .op (mov .l .l),  -- 0x6d
  .op (mov_m .l),  -- 0x6e
  .op (mov .l .a)  -- 0x6f
]

/-- Entries 0x70-0x7f of instruction_dict_8080. -/
def instruction_table_7 : List TableEntry := [
  .op (mov_to_m .b),  -- 0x70
  .op (mov_to_m .c),  -- 0x71
  .op (mov_to_m .d),  -- 0x72
  .op (mov_to_m .e),  -- 0x73
  .op (mov_to_m .h),  -- 0x74
  .op (mov_to_m .l),  -- 0x75
  .strEntry "HLT",  -- 0x76
  .op (mov_to_m .a),  -- 0x77
  .op (mov .a .b),  -- 0x78
  .op (mov .a .c),  -- 0x79
  .op (mov .a .d),  -- 0x7a
  .op (mov .a .e),  -- 0x7b
  .op (mov .a .h),  -- 0x7c
  .op (mov .a .l),  -- 0x7d
  .op (mov_m .a),  -- 0x7e
  .op (mov .a .a)  -- 0x7f
]

/-- Entries 0x80-0x8f of instruction_dict_8080. -/
def instruction_table_8 : List TableEntry := [
  .op (add .a .b),  -- 0x80
  .op (add .a .c),  -- 0x81
  .op (add .a .d),  -- 0x82
  .op (add .a .e),  -- 0x83
  .op (add .a .h),  -- 0x84
  .op (add .a .l),  -- 0x85
  .op (add_m .a),  -- 0x86
  .op (add .a .a),  -- 0x87
  .op (adc .a .b),  -- 0x88
  .op (adc .a .c),  -- 0x89
  .op (adc .a .d),  -- 0x8a
  .op (adc .a .e),  -- 0x8b
  .op (adc .a .h),  -- 0x8c
  .op (adc .a .l),  -- 0x8d
  .op (adc_m .a),  -- 0x8e
  .op (adc .a .a)  -- 0x8f
]

/-- Entries 0x90-0x9f of instruction_dict_8080. -/
def instruction_table_9 : List TableEntry := [
  .op (sub .a .b),  -- 0x90
  .op (sub .a .c),  -- 0x91
  .op (sub .a .d),  -- 0x92
  .op (sub .a .e),  -- 0x93
  .op (sub .a .h),  -- 0x94
  .op (sub .a .l),  -- 0x95
  .op (sub_m .a),  -- 0x96
  .op (sub .a .a),  -- 0x97
  .op (sbb .a .b),  -- 0x98
  .op (sbb .a .c),  -- 0x99
  .op (sbb .a .d),  -- 0x9a
  .op (sbb .a .e),  -- 0x9b
  .op (sbb .a .h),  -- 0x9c
  .op (sbb .a .l),  -- 0x9d
  .op (sbb_m .a),  -- 0x9e
  .op (sbb .a .a)  -- 0x9f
]

/-- Entries 0xa0-0xaf of instruction_dict_8080. -/
def instruction_table_10 : List TableEntry := [
  .op (ana .b),  -- 0xa0
  .op (ana .c),  -- 0xa1
  .op (ana .d),  -- 0xa2
  .op (ana .e),  -- 0xa3
  .op (ana .h),  -- 0xa4
  .op (ana .l),  -- 0xa5
  .op (ana .m),  -- 0xa6
  .op (ana .a),  -- 0xa7
  .op (xra .b),  -- 0xa8
  .op (xra .c),  -- 0xa9
  .op (xra .d),  -- 0xaa
  .op (xra .e),  -- 0xab
  .op (xra .h),  -- 0xac
  .op (xra .l),  -- 0xad
  .op (xra .m),  -- 0xae
  .op (xra .a)  -- 0xaf
]

/-- Entries 0xb0-0xbf of instruction_dict_8080. -/
def instruction_table_11 : List TableEntry := [
  .op (ora .b),  -- 0xb0
  .op (ora .c),  -- 0xb1
  .op (ora .d),  -- 0xb2
  .op (ora .e),  -- 0xb3
  .op (ora .h),  -- 0xb4
  .op (ora .l),  -- 0xb5
  .op (ora .m),  -- 0xb6
  .op (ora .a),  -- 0xb7
  .op (cmp .a .b),  -- 0xb8
  .op (cmp .a .c),  -- 0xb9
  .op (cmp .a .d),  -- 0xba
  .op (cmp .a .e),  -- 0xbb
  .op (cmp .a .h),  -- 0xbc
  .op (cmp .a .l),  -- 0xbd
  .op (cmp_m .a),  -- 0xbe
  .op (cmp .a .a)  -- 0xbf
]

/-- Entries 0xc0-0xcf of instruction_dict_8080. -/
def instruction_table_12 : List TableEntry := [
  .op (ret_not_flag .z),  -- 0xc0
  .op (pop .b .c),  -- 0xc1
  .op (jmp_not_flag .z),  -- 0xc2
  .op jmp,  -- 0xc3
  .op (call_not_flag .z),  -- 0xc4
  .op (push (.reg .b) (.reg .c)),  -- 0xc5
  .op (adi .a),  -- 0xc6
  .op (rst 0x0),  -- 0xc7
  .op (ret_flag .z),  -- 0xc8
  .op ret,  -- 0xc9
  .op (jmp_flag .z),  -- 0xca
  .op nop,  -- 0xcb
  .op (call_flag .z),  -- 0xcc
  .op call,  -- 0xcd
  .op (aci .a),  -- 0xce
  .op (rst 0x8)  -- 0xcf
]

/-- Entries 0xd0-0xdf of instruction_dict_8080. -/
def instruction_table_13 : List TableEntry := [
  .op (ret_not_flag .cy),  -- 0xd0
  .op (pop .d .e),  -- 0xd1
  .op (jmp_not_flag .cy),  -- 0xd2
  .op pretend_write,  -- 0xd3
  .op (call_not_flag .cy),  -- 0xd4
  .op (push (.reg .d) (.reg .e)),  -- 0xd5
  .op (sui .a),  -- 0xd6
  .op (rst 0x10),  -- 0xd7
  .op (ret_flag .cy),  -- 0xd8
  .op nop,  -- 0xd9
  .op (jmp_flag .cy),  -- 0xda
  .op pretend_read,  -- 0xdb
  .op (call_flag .cy),  -- 0xdc
  .op nop,  -- 0xdd
  .op (sbi .a),  -- 0xde
  .op (rst 0x18)  -- 0xdf
]

/-- Entries 0xe0-0xef of instruction_dict_8080. -/
def instruction_table_14 : List TableEntry := [
  .op (ret_not_flag .p),  -- 0xe0
  .op (pop .h .l),  -- 0xe1
  .op (jmp_not_flag .p),  -- 0xe2
  .op xthl,  -- 0xe3
  .op (call_not_flag .p),  -- 0xe4
  .op (push (.reg .h) (.reg .l)),  -- 0xe5
  .op ani,  -- 0xe6
  .op (rst 0x20),  -- 0xe7
  .op (ret_flag .p),  -- 0xe8
  .op (load_r .pc .h .l),  -- 0xe9
  .op (jmp_flag .p),  -- 0xea
  .op xchg,  -- 0xeb
  .op (call_flag .p),  -- 0xec
  .op nop,  -- 0xed
  .op xri,  -- 0xee
  .op (rst 0x28)  -- 0xef
]

/-- Entries 0xf0-0xff of instruction_dict_8080. -/
def instruction_table_15 : List TableEntry := [
  .op (ret_not_flag .s),  -- 0xf0
  .op pop_psw,  -- 0xf1
  .op (jmp_not_flag .s),  -- 0xf2
  .op (set_interrupt_enabled false),  -- 0xf3
  .op (call_not_flag .s),  -- 0xf4
  .op push_psw,  -- 0xf5
  .op ori,  -- 0xf6
  .op (rst 0x30),  -- 0xf7
  .op (ret_flag .s),  -- 0xf8
  .op (load_r .sp .h .l),  -- 0xf9
  .op (jmp_flag .s),  -- 0xfa
  .op (set_interrupt_enabled true),  -- 0xfb
  .op (call_flag .s),  -- 0xfc
  .op nop,  -- 0xfd
  .op (cmi .a),  -- 0xfe
  .op (rst 0x38)  -- 0xff
]

/-- instruction_dict_8080 of emulator_8080.py: the 256 table entries,
one per key 0x00-0xff in ascending key order. -/
def instruction_table : List TableEntry :=
  instruction_table_0 ++ instruction_table_1 ++ instruction_table_2 ++ instruction_table_3 ++
  instruction_table_4 ++ instruction_table_5 ++ instruction_table_6 ++ instruction_table_7 ++
  instruction_table_8 ++ instruction_table_9 ++ instruction_table_10 ++ instruction_table_11 ++
  instruction_table_12 ++ instruction_table_13 ++ instruction_table_14 ++ instruction_table_15

/-- Lookup in instruction_dict_8080, with dictionary semantics: the
keys are exactly 0x00-0xff, and any other opcode raises KeyError
(none). -/
def instruction_dict_8080 (opcode : Int) : Option TableEntry :=
  if 0 ≤ opcode ∧ opcode < 256 then instruction_table.get? opcode.toNat else none

/-- emulate_operation: fetch the opcode at PC, look its entry up in
the table (a plain index: a missing key raises KeyError), call it (a
string entry raises TypeError), then increase PC by the returned
instruction length.  Returns the executed opcode as the source does. -/
def emulate_operation (st : SystemState) : Option (SystemState × Int) := do
  let opcode ← get_current_opcode st
  let entry ← instruction_dict_8080 opcode
  match entry with
  | .strEntry _ => none
  | .op operation => do
    let (st, instruction_length) ← operation st
    pure (increase_pc st instruction_length, opcode)

/-- step: one call of emulate_operation, keeping the state. -/
def step (st : SystemState) : Option SystemState :=
  (emulate_operation st).map Prod.fst

/-- interrupt: when interrupts are disabled, nothing happens at all;
otherwise interrupts are disabled and the given opcode's table entry
is fetched with dict.get and called, with no PC increase for the
opcode's length afterwards (the operation's returned length is
discarded).  A missing key makes dict.get return None and calling None
raises TypeError (none). -/
def interrupt (opcode : Int) (st : SystemState) : Option SystemState :=
  if get_flag st .interrupt_enabled then do
    let (st, _) ← set_interrupt_enabled false st
    match instruction_dict_8080 opcode with
    | none => none
    | some (.strEntry _) => none
    | some (.op operation) => do
      let (st, _) ← operation st
      pure st
  else
    pure st

end Emu8080

namespace Disasm8080

set_option maxHeartbeats 1000000 in
/-- mnemonics of instruction_info_8080.py: the 256 mnemonic strings,
one per key 0x00-0xff in ascending key order. -/
def mnemonics_table : List String := [
  "NOP",  -- 0x00
  "LXI B,D16",  -- 0x01
  "STAX B",  -- 0x02
  "INX B",  -- 0x03
  "INR B",  -- 0x04
  "DCR B",  -- 0x05
  "MVI B,D8",  -- 0x06
  "RLC",  -- 0x07
  "---",  -- 0x08
  "DAD B",  -- 0x09
  "LDAX B",  -- 0x0a
  "DCX B",  -- 0x0b
  "INR C",  -- 0x0c
  "DCR C",  -- 0x0d
  "MVI C,D8",  -- 0x0e
  "RRC",  -- 0x0f
  "---",  -- 0x10
  "LXI D,D16",  -- 0x11
  "STAX D",  -- 0x12
  "INX D",  -- 0x13
  "INR D",  -- 0x14
  "DCR D",  -- 0x15
  "MVI D,D8",  -- 0x16
  "RAL",  -- 0x17
  "---",  -- 0x18
  "DAD D",  -- 0x19
  "LDAX D",  -- 0x1a
  "DCX D",  -- 0x1b
  "INR E",  -- 0x1c
  "DCR E",  -- 0x1d
  "MVI E,D8",  -- 0x1e
  "RAR",  -- 0x1f
  "RIM",  -- 0x20
  "LXI H,D16",  -- 0x21
  "SHLD adr",  -- 0x22
  "INX H",  -- 0x23
  "INR H",  -- 0x24
  "DCR H",  -- 0x25
  "MVI H,D8",  -- 0x26
  "DAA",  -- 0x27
  "---",  -- 0x28
  "DAD H",  -- 0x29
  "LHLD adr",  -- 0x2a
  "DCX H",  -- 0x2b
  "INR L",  -- 0x2c
  "DCR L",  -- 0x2d
  "MVI L,D8",  -- 0x2e
  "CMA",  -- 0x2f
  "SIM",  -- 0x30
  "LXI SP,D16",  -- 0x31
  "STA adr",  -- 0x32
  "INX SP",  -- 0x33
  "INR M",  -- 0x34
  "DCR M",  -- 0x35
  "MVI M,D8",  -- 0x36
  "STC",  -- 0x37
  "---",  -- 0x38
  "DAD SP",  -- 0x39
  "LDA adr",  -- 0x3a
  "DCX SP",  -- 0x3b
  "INR A",  -- 0x3c
  "DCR A",  -- 0x3d
  "MVI A,D8",  -- 0x3e
  "CMC",  -- 0x3f
  "MOV B,B",  -- 0x40
  "MOV B,C",  -- 0x41
  "MOV B,D",  -- 0x42
  "MOV B,E",  -- 0x43
  "MOV B,H",  -- 0x44
  "MOV B,L",  -- 0x45
  "MOV B,M",  -- 0x46
  "MOV B,A",  -- 0x47
  "MOV C,B",  -- 0x48
  "MOV C,C",  -- 0x49
  "MOV C,D",  -- 0x4a
  "MOV C,E",  -- 0x4b
  "MOV C,H",  -- 0x4c
  "MOV C,L",  -- 0x4d
  "MOV C,M",  -- 0x4e
  "MOV C,A",  -- 0x4f
  "MOV D,B",  -- 0x50
  "MOV D,C",  -- 0x51
  "MOV D,D",  -- 0x52
  "MOV D,E",  -- 0x53
  "MOV D,H",  -- 0x54
  "MOV D,L",  -- 0x55
  "MOV D,M",  -- 0x56
  "MOV D,A",  -- 0x57
  "MOV E,B",  -- 0x58
  "MOV E,C",  -- 0x59
  "MOV E,D",  -- 0x5a
  "MOV E,E",  -- 0x5b
  "MOV E,H",  -- 0x5c
  "MOV E,L",  -- 0x5d
  "MOV E,M",  -- 0x5e
  "MOV E,A",  -- 0x5f
  "MOV H,B",  -- 0x60
  "MOV H,C",  -- 0x61
  "MOV H,D",  -- 0x62
  "MOV H,E",  -- 0x63
  "MOV H,H",  -- 0x64
  "MOV H,L",  -- 0x65
  "MOV H,M",  -- 0x66
  "MOV H,A",  -- 0x67
  "MOV L,B",  -- 0x68
  "MOV L,C",  -- 0x69
  "MOV L,D",  -- 0x6a
  "MOV L,E",  -- 0x6b
  "MOV L,H",  -- 0x6c
  "MOV L,L",  -- 0x6d
  "MOV L,M",  -- 0x6e
  "MOV L,A",  -- 0x6f
  "MOV M,B",  -- 0x70
  "MOV M,C",  -- 0x71
  "MOV M,D",  -- 0x72
  "MOV M,E",  -- 0x73
  "MOV M,H",  -- 0x74
  "MOV M,L",  -- 0x75
  "HLT",  -- 0x76
  "MOV M,A",  -- 0x77
  "MOV A,B",  -- 0x78
  "MOV A,C",  -- 0x79
  "MOV A,D",  -- 0x7a
  "MOV A,E",  -- 0x7b
  "MOV A,H",  -- 0x7c
  "MOV A,L",  -- 0x7d
  "MOV A,M",  -- 0x7e
  "MOV A,A",  -- 0x7f
  "ADD B",  -- 0x80
  "ADD C",  -- 0x81
  "ADD D",  -- 0x82
  "ADD E",  -- 0x83
  "ADD H",  -- 0x84
  "ADD L",  -- 0x85
  "ADD M",  -- 0x86
  "ADD A",  -- 0x87
  "ADC B",  -- 0x88
  "ADC C",  -- 0x89
  "ADC D",  -- 0x8a
  "ADC E",  -- 0x8b
  "ADC H",  -- 0x8c
  "ADC L",  -- 0x8d
  "ADC M",  -- 0x8e
  "ADC A",  -- 0x8f
  "SUB B",  -- 0x90
  "SUB C",  -- 0x91
  "SUB D",  -- 0x92
  "SUB E",  -- 0x93
  "SUB H",  -- 0x94
  "SUB L",  -- 0x95
  "SUB M",  -- 0x96
  "SUB A",  -- 0x97
  "SBB B",  -- 0x98
  "SBB C",  -- 0x99
  "SBB D",  -- 0x9a
  "SBB E",  -- 0x9b
  "SBB H",  -- 0x9c
  "SBB L",  -- 0x9d
  "SBB M",  -- 0x9e
  "SBB A",  -- 0x9f
  "ANA B",  -- 0xa0
  "ANA C",  -- 0xa1
  "ANA D",  -- 0xa2
  "ANA E",  -- 0xa3
  "ANA H",  -- 0xa4
  "ANA L",  -- 0xa5
  "ANA M",  -- 0xa6
  "ANA A",  -- 0xa7
  "XRA B",  -- 0xa8
  "XRA C",  -- 0xa9
  "XRA D",  -- 0xaa
  "XRA E",  -- 0xab
  "XRA H",  -- 0xac
  "XRA L",  -- 0xad
  "XRA M",  -- 0xae
  "XRA A",  -- 0xaf
  "ORA B",  -- 0xb0
  "ORA C",  -- 0xb1
  "ORA D",  -- 0xb2
  "ORA E",  -- 0xb3
  "ORA H",  -- 0xb4
  "ORA L",  -- 0xb5
  "ORA M",  -- 0xb6
  "ORA A",  -- 0xb7
  "CMP B",  -- 0xb8
  "CMP C",  -- 0xb9
  "CMP D",  -- 0xba
  "CMP E",  -- 0xbb
  "CMP H",  -- 0xbc
  "CMP L",  -- 0xbd
  "CMP M",  -- 0xbe
  "CMP A",  -- 0xbf
  "RNZ",  -- 0xc0
  "POP B",  -- 0xc1
  "JNZ adr",  -- 0xc2
  "JMP adr",  -- 0xc3
  "CNZ adr",  -- 0xc4
  "PUSH B",  -- 0xc5
  "ADI D8",  -- 0xc6
  "RST 0",  -- 0xc7
  "RZ",  -- 0xc8
  "RET",  -- 0xc9
  "JZ adr",  -- 0xca
  "---",  -- 0xcb
  "CZ adr",  -- 0xcc
  "CALL adr",  -- 0xcd
  "ACI D8",  -- 0xce
  "RST 1",  -- 0xcf
  "RNC",  -- 0xd0
  "POP D",  -- 0xd1
  "JNC adr",  -- 0xd2
  "OUT D8",  -- 0xd3
  "CNC adr",  -- 0xd4
  "PUSH D",  -- 0xd5
  "SUI D8",  -- 0xd6
  "RST 2",  -- 0xd7
  "RC",  -- 0xd8
  "---",  -- 0xd9
  "JC adr",  -- 0xda
  "IN D8",  -- 0xdb
  "CC adr",  -- 0xdc
  "---",  -- 0xdd
  "SBI D8",  -- 0xde
  "RST 3",  -- 0xdf
  "RPO",  -- 0xe0
  "POP H",  -- 0xe1
  "JPO adr",  -- 0xe2
  "XTHL",  -- 0xe3
  "CPO adr",  -- 0xe4
  "PUSH H",  -- 0xe5
  "ANI D8",  -- 0xe6
  "RST 4",  -- 0xe7
  "RPE",  -- 0xe8
  "PCHL",  -- 0xe9
  "JPE adr",  -- 0xea
  "XCHG",  -- 0xeb
  "CPE adr",  -- 0xec
  "---",  -- 0xed
  "XRI D8",  -- 0xee
  "RST 5:",  -- 0xef
  "RP",  -- 0xf0
  "POP PSW",  -- 0xf1
  "JP adr",  -- 0xf2
  "DI",  -- 0xf3
  "CP adr",  -- 0xf4
  "PUSH PSW",  -- 0xf5
  "ORI D8",  -- 0xf6
  "RST 6",  -- 0xf7
  "RM",  -- 0xf8
  "SPHL",  -- 0xf9
  "JM adr",  -- 0xfa
  "EI",  -- 0xfb
  "CM adr",  -- 0xfc
  "---",  -- 0xfd
  "CPI D8",  -- 0xfe
  "RST 7"  -- 0xff
]

/-- Lookup in mnemonics, with dictionary semantics: the keys are
exactly 0x00-0xff, and any other value raises KeyError (none). -/
def mnemonics (opcode : Nat) : Option String :=
  if opcode < 256 then mnemonics_table.get? opcode else none

/-- special_sizes of instruction_info_8080.py: the opcodes whose
instructions carry immediate bytes, mapped to their total size; every
other opcode is size 1. -/
def special_sizes : Nat → Option Nat
  | 0x01 => some 3
  | 0x06 => some 2
  | 0x0e => some 2
  | 0x11 => some 3
  | 0x16 => some 2
  | 0x1e => some 2
  | 0x21 => some 3
  | 0x22 => some 3
  | 0x26 => some 2
  | 0x2a => some 3
  | 0x2e => some 2
  | 0x31 => some 3
  | 0x32 => some 3
  | 0x36 => some 2
  | 0x3a => some 3
  | 0x3e => some 2
  | 0xc2 => some 3
  | 0xc3 => some 3
  | 0xc4 => some 3
  | 0xc6 => some 2
  | 0xca => some 3
  | 0xcc => some 3
  | 0xcd => some 3
  | 0xce => some 2
  | 0xd2 => some 3
  | 0xd3 => some 2
  | 0xd4 => some 3
  | 0xd6 => some 2
  | 0xda => some 3
  | 0xdb => some 2
  | 0xdc => some 3
  | 0xde => some 2
  | 0xe2 => some 3
  | 0xe4 => some 3
  | 0xe6 => some 2
  | 0xea => some 3
  | 0xec => some 3
  | 0xee => some 2
  | 0xf2 => some 3
  | 0xf4 => some 3
  | 0xf6 => some 2
  | 0xfa => some 3
  | 0xfc => some 3
  | 0xfe => some 2
  | _ => none

/-- Lowercase hex rendering of a number padded with zeros to the given
minimum width: Python's "%02x" and "%04x". -/
def pyHexPad (width n : Nat) : String :=
  let ds := Nat.toDigits 16 n
  String.mk (List.replicate (width - ds.length) '0') ++ String.mk ds

/-- Left-justified padding to width 12 with spaces: "{:<12}".format. -/
def padTo12 (text : String) : String :=
  text ++ String.mk (List.replicate (12 - text.length) ' ')

/-- The loop body of dissassemble, one recursive call per emitted
line, fuel-indexed (the fuel never runs out when it starts at the blob
length, because every iteration advances the index by at least 1).
Reading the opcode past the end terminates the loop; a missing
mnemonic key raises KeyError; an operand byte index past the end
raises IndexError (none), exactly where blob[index] would raise in the
source.  The operand bytes are displayed reversed, each as "%02x "
appended after the mnemonic padded to 12 columns. -/
def dissassembleAux (blob : List Nat) (show_address : Bool) :
    Nat → Nat → Option (List String)
  | 0, index => if index < blob.length then none else some []
  | fuel + 1, index =>
    if h : index < blob.length then do
      let instr := blob.get ⟨index, h⟩
      let addr_part := if show_address then pyHexPad 4 index ++ "  " else ""
      let descriptor ← mnemonics instr
      let size := (special_sizes instr).getD 1
      if index + size ≤ blob.length then
        let data := ((blob.drop (index + 1)).take (size - 1)).reverse
        let line := addr_part ++ padTo12 descriptor
            ++ String.join (data.map fun dataByte => pyHexPad 2 dataByte ++ " ") ++ "\n"
        let rest ← dissassembleAux blob show_address fuel (index + size)
        pure (line :: rest)
      else
        none
    else
      some []

/-- dissassemble as a list of output lines, one per instruction, each
including its terminating newline. -/
def dissassembleLines (blob : List Nat) (show_address : Bool := false) :
    Option (List String) :=
  dissassembleAux blob show_address blob.length 0

/-- dissassemble of disassemble8080.py: the concatenation of the
emitted lines. -/
def dissassemble (blob : List Nat) (show_address : Bool := false) :
    Option String :=
  (dissassembleLines blob show_address).map String.join

/-- The number of instructions of a blob under the walk of
dissassemble: one per iteration, the index advancing by each opcode's
size. -/
def countInstrs (blob : List Nat) : Nat → Nat → Nat
  | 0, _ => 0
  | fuel + 1, index =>
    if index < blob.length then
      1 + countInstrs blob fuel (index + ((special_sizes (blob.getD index 0)).getD 1))
    else
      0

/-- Every instruction of the blob fits: walking by opcode sizes, no
multi-byte instruction sticks out past the end of the input. -/
def sizesFit (blob : List Nat) : Nat → Nat → Bool
  | 0, index => decide (blob.length ≤ index)
  | fuel + 1, index =>
    if index < blob.length then
      let size := (special_sizes (blob.getD index 0)).getD 1
      decide (index + size ≤ blob.length) && sizesFit blob fuel (index + size)
    else
      true

end Disasm8080

set_option maxRecDepth 10000

namespace Emu8080

/- Extra definitions used by the theorems: well-formedness of a state,
   callability of a table entry, and the concrete states at which the
   claims are evaluated. -/

/-- A byte-valued cell is in range. -/
def WFbyte (v : Int) : Prop := 0 ≤ v ∧ v < 256

/-- Well-formed state: every register and memory cell holds a byte in
[0, 255] and SP and PC hold words in [0, 65535] (the state space the
spec describes). -/
def WF (st : SystemState) : Prop :=
  WFbyte st.a ∧ WFbyte st.b ∧ WFbyte st.c ∧ WFbyte st.d ∧ WFbyte st.e ∧
  WFbyte st.h ∧ WFbyte st.l ∧
  (0 ≤ st.sp ∧ st.sp < 65536) ∧ (0 ≤ st.pc ∧ st.pc < 65536) ∧
  (∀ i : Nat, WFbyte (st.memory i))

/-- A table entry is callable when it is an instruction rather than a
bare mnemonic string. -/
def TableEntry.isCallable : TableEntry → Bool
  | .op _ => true
  | .strEntry _ => false

/-- Memory holding the single opcode byte 0x20 (table entry "RIM"). -/
def mem_rim : Nat → Int := fun i => if i = 0 then 0x20 else 0

/-- Reset state with the RIM opcode at address 0. -/
def state_rim : SystemState := { initial_state with memory := mem_rim }

/-- Memory holding the single opcode byte 0x3d (DCR A). -/
def mem_dcr_a : Nat → Int := fun i => if i = 0 then 0x3d else 0

/-- Reset state with DCR A at address 0: A = 0 is about to be
decremented. -/
def state_dcr_a : SystemState := { initial_state with memory := mem_dcr_a }

/-- Memory holding 3E 00 3D (MVI A,0; DCR A) at address 0. -/
def mem_mvi_dcr : Nat → Int := fun i => if i = 0 then 0x3e else if i = 2 then 0x3d else 0

/-- Reset state with the spec scenario 3E 00 3D loaded at 0. -/
def state_mvi_dcr : SystemState := { initial_state with memory := mem_mvi_dcr }

/-- Memory with CD 00 02 (CALL 0x0200) at 0 and C9 (RET) at 0x0200. -/
def mem_call_ret : Nat → Int :=
  fun i => if i = 0 then 0xcd else if i = 2 then 0x02 else if i = 0x200 then 0xc9 else 0

/-- The CALL/RET scenario state: SP = 0x2400, PC = 0. -/
def state_call_ret : SystemState := { initial_state with sp := 0x2400, memory := mem_call_ret }

/-- Memory holding the single opcode byte 0x98 (SBB B). -/
def mem_sbb_b : Nat → Int := fun i => if i = 0 then 0x98 else 0

/-- State with A = 5, B = 5, CY set, about to execute SBB B. -/
def state_sbb_5_5_1 : SystemState :=
  { initial_state with a := 5, b := 5, cy := true, memory := mem_sbb_b }

/-- Memory holding the single opcode byte 0x08 (an undocumented NOP
slot). -/
def mem_undoc_08 : Nat → Int := fun i => if i = 0 then 0x08 else 0

/-- Reset state with opcode 0x08 at address 0. -/
def state_undoc_08 : SystemState := { initial_state with memory := mem_undoc_08 }

/-- The assembled PSW byte of push_psw, per the fixed layout bit7 = S,
bit6 = Z, bit5 = 0, bit4 = AC, bit3 = 0, bit2 = P, bit1 = 1,
bit0 = CY. -/
def psw_byte (st : SystemState) : Int :=
  128 * boolInt st.s + 64 * boolInt st.z + 16 * boolInt st.ac +
    4 * boolInt st.p + 2 + boolInt st.cy

/-- State used to witness the interrupt theorem: interrupts enabled,
PC = 0x1234, SP = 0x2400. -/
def state_int_enabled : SystemState :=
  { initial_state with pc := 0x1234, sp := 0x2400, interrupt_enabled := true }

/-- The DAA algorithm exactly as the claim words it (a claim-side
definition, to be compared with the daa translated from the source):
if the low nibble of A exceeds 9 or AC is set, 0x06 is added and AC
becomes the carry out of the low nibble, otherwise AC becomes false;
then if the resulting high nibble exceeds 9 or CY is set, 0x60 is
added; CY is set when that second addition carries out and is never
cleared.  Returns (final A, new AC, new CY). -/
def daa_claim (a : Int) (acF cyF : Bool) : Int × Bool × Bool :=
  let cond1 : Bool := decide (a % 16 > 9) || acF
  let a1 := if cond1 then a + 0x06 else a
  let acOut : Bool := cond1 && decide (16 ≤ a % 16 + 6)
  let cond2 : Bool := decide ((a1 % 256) / 16 > 9) || cyF
  let a2 := if cond2 then a1 + 0x60 else a1
  let cyOut : Bool := cyF || (cond2 && decide (256 ≤ a1 % 256 + 0x60))
  (a2 % 256, acOut, cyOut)

/-- Memory holding the single opcode byte 0x27 (DAA). -/
def mem_daa : Nat → Int := fun i => if i = 0 then 0x27 else 0

/-- State with A = 0x9B about to execute DAA: both nibble fixes fire
(9B → A1 → 0x101), so A becomes 0x01 with CY and AC set. -/
def state_daa_9b : SystemState := { initial_state with a := 0x9b, memory := mem_daa }

/-- Memory with PUSH PSW at 0x10 and POP PSW at 0x11. -/
def mem_psw : Nat → Int := fun i => if i = 0x10 then 0xf5 else if i = 0x11 then 0xf1 else 0

/-- State with A = 0xAB, flags Z, P, CY set, PC = 0x10, SP = 0x2400,
about to run PUSH PSW; POP PSW. -/
def state_psw : SystemState :=
  { initial_state with
      a := 0xab
      z := true
      p := true
      cy := true
      pc := 0x10
      sp := 0x2400
      memory := mem_psw }

/-- A state exercising the logical instructions: A = 0xFF, B = 0xF0,
CY set on entry. -/
def state_c10 : SystemState :=
  { initial_state with a := 0xff, b := 0xf0, cy := true }

/- Helper lemmas. -/

/-- The byte normaliser is reduction modulo 256, for every integer. -/
theorem get_int_TC_eq_emod (v : Int) : get_int_TC v 255 = v % 256 := by
  unfold get_int_TC pyAnd
  rcases v with n | n
  · rw [if_neg (show ¬Int.ofNat n < 0 from not_lt.mpr (Int.natCast_nonneg n))]
    norm_num
  · simp only [Int.negSucc_lt_zero, if_pos]
    have h1 : (Int.negSucc n).natAbs = n + 1 := rfl
    have h2 : (255 : Int) = Int.ofNat 255 := rfl
    rw [h1, h2]
    show -(Int.ofNat ((n + 1) &&& 255)) % 256 = Int.negSucc n % 256
    have h3 : (n + 1) &&& 255 = (n + 1) % 256 := by
      have := Nat.and_pow_two_sub_one_eq_mod (n + 1) 8
      norm_num at this
      exact this
    have h4 : Int.negSucc n = -(Int.ofNat (n + 1)) := rfl
    rw [h3, h4]
    simp only [Int.ofNat_eq_natCast]
    push_cast
    omega

/-- The word normaliser is reduction modulo 65536, for every integer. -/
theorem get_int_TC_word_eq_emod (v : Int) : get_int_TC v 65535 = v % 65536 := by
  unfold get_int_TC pyAnd
  rcases v with n | n
  · rw [if_neg (show ¬Int.ofNat n < 0 from not_lt.mpr (Int.natCast_nonneg n))]
    norm_num
  · simp only [Int.negSucc_lt_zero, if_pos]
    have h1 : (Int.negSucc n).natAbs = n + 1 := rfl
    have h2 : (65535 : Int) = Int.ofNat 65535 := rfl
    rw [h1, h2]
    show -(Int.ofNat ((n + 1) &&& 65535)) % 65536 = Int.negSucc n % 65536
    have h3 : (n + 1) &&& 65535 = (n + 1) % 65536 := by
      have := Nat.and_pow_two_sub_one_eq_mod (n + 1) 16
      norm_num at this
      exact this
    have h4 : Int.negSucc n = -(Int.ofNat (n + 1)) := rfl
    rw [h3, h4]
    simp only [Int.ofNat_eq_natCast]
    push_cast
    omega

end Emu8080

namespace Emu8080


/-- A fetched opcode whose table entry is the nop instruction steps to
the same state with PC advanced by 1. -/
theorem step_nop_of_fetch (st : SystemState) (op : Int)
    (hop : instruction_dict_8080 op = some (.op nop))
    (hfetch : get_current_opcode st = some op) :
    step st = some { st with pc := st.pc + 1 } := by
  simp [step, emulate_operation, hfetch, hop, nop, increase_pc]

/-- C1 counterexample: 0x20 is one of the slots the claim lists as
behaving like NOP, but its table entry is the bare string "RIM";
calling it raises TypeError, so the step fails instead of leaving the
state unchanged with PC advanced. -/
theorem C1_counterexample : step state_rim = none := by rfl

set_option maxRecDepth 8000 in
set_option maxHeartbeats 4000000 in
/-- C1 (amended): the opcode table is total on 0x00-0xFF; every entry
except 0x20 (RIM), 0x30 (SIM) and 0x76 (HLT) — which are bare mnemonic
strings, not callables — is callable; and the undocumented slots other
than 0x20 and 0x30, namely 0x08, 0x10, 0x18, 0x28, 0x38, 0xCB, 0xD9,
0xDD, 0xED, 0xFD, behave exactly as NOP: a single step leaves every
register, flag and memory cell unchanged and advances PC by 1. -/
theorem C1_table_total_and_undocumented_nop :
    (∀ n : Nat, n < 256 → (instruction_dict_8080 (Int.ofNat n)).isSome = true) ∧
    (∀ n : Nat, n < 256 → n ∉ ([0x20, 0x30, 0x76] : List Nat) →
      ((instruction_dict_8080 (Int.ofNat n)).map TableEntry.isCallable) = some true) ∧
    (∀ (st : SystemState) (op : Int), get_current_opcode st = some op →
      op ∈ ([0x08, 0x10, 0x18, 0x28, 0x38, 0xcb, 0xd9, 0xdd, 0xed, 0xfd] : List Int) →
      step st = some { st with pc := st.pc + 1 }) := by
  refine ⟨by decide, by decide, ?_⟩
  intro st op hfetch hmem
  fin_cases hmem <;> refine step_nop_of_fetch st _ ?_ hfetch <;> rfl

/-- C1 witness: the amended theorem applied at opcode 0x08 placed at
address 0 of the reset state. -/
theorem C1_witness :
    step state_undoc_08 = some { state_undoc_08 with pc := state_undoc_08.pc + 1 } :=
  C1_table_total_and_undocumented_nop.2.2 state_undoc_08 0x08 rfl (by decide)

/-- C2: a single DCR A step from the well-formed state with A = 0
stores -1 in register A — outside [0, 255] — because
decrement_register bypasses the two's-complement normaliser. -/
theorem C2_dcr_escapes_byte_range :
    (step state_dcr_a).map SystemState.a = some (-1) := by decide

/-- C3: running 3E 00 3D from the reset state for two steps gives the
flags and PC the claim states (Z false, S true, P true, CY still
false, PC = 3), but register A holds the Python integer -1, not 0xFF:
decrement_register skips the normaliser, although set_flags then
treats the value as the byte 0xFF. -/
theorem C3_mvi_dcr_result :
    (((step state_mvi_dcr).bind step).map
      fun st => (st.a, st.z, st.s, st.p, st.cy, st.pc)) =
      some (-1, false, true, true, false, 3) := by decide

/-- C6: CALL 0x0200 from PC = 0, SP = 0x2400 pushes the return
address 0x0003 (low byte at 0x23FE, high byte at 0x23FF), jumps to
0x0200, and the RET there restores SP = 0x2400 and PC = 0x0003. -/
theorem C6_call_then_ret :
    ((step state_call_ret).map
      fun st => (st.sp, st.memory 0x23fe, st.memory 0x23ff, st.pc)) =
      some (0x23fe, 0x03, 0x00, 0x0200) ∧
    (((step state_call_ret).bind step).map fun st => (st.sp, st.pc)) =
      some (0x2400, 0x0003) := by decide

/-- C4 counterexample: SBB B with A = 5, B = 5 and CY = 1.  The borrow
really occurs (v + c = 6 > 5 = a) and A becomes 0xFF, but the code
computes the new CY from v > a alone and leaves it false, where the
claim requires CY = 1. -/
theorem C4_counterexample :
    ((step state_sbb_5_5_1).map fun st => (st.a, st.cy)) = some (0xff, false) ∧
    (5 : Int) + 1 > 5 := by decide

end Emu8080

namespace Emu8080

/-- Python's x & 0xff is reduction modulo 256 on every integer. -/
theorem pyAnd_255_eq_emod (v : Int) : pyAnd v 255 = v % 256 := by
  rcases v with n | n
  · show Int.ofNat (n &&& 255) = Int.ofNat n % 256
    have h : n &&& 255 = n % 256 := by
      have := Nat.and_pow_two_sub_one_eq_mod n 8
      norm_num at this
      exact this
    rw [h]
    simp only [Int.ofNat_eq_natCast]
    push_cast
    omega
  · show Int.ofNat (255 - (255 &&& n)) = Int.negSucc n % 256
    have h : 255 &&& n = n % 256 := by
      rw [Nat.and_comm]
      have := Nat.and_pow_two_sub_one_eq_mod n 8
      norm_num at this
      exact this
    rw [h]
    have h4 : Int.negSucc n = -(Int.ofNat (n + 1)) := rfl
    rw [h4]
    simp only [Int.ofNat_eq_natCast]
    push_cast
    omega

/-- Halving a Nat AND halves both sides, iterated to a division by
256. -/
theorem and_div_256 (m k : Nat) : (m &&& k) / 256 = m / 256 &&& k / 256 := by
  have h1 : (m &&& k) / 256 = (m &&& k) / 2 / 2 / 2 / 2 / 2 / 2 / 2 / 2 := by
    simp only [Nat.div_div_eq_div_mul]
  have h2 : m / 256 = m / 2 / 2 / 2 / 2 / 2 / 2 / 2 / 2 := by
    simp only [Nat.div_div_eq_div_mul]
  have h3 : k / 256 = k / 2 / 2 / 2 / 2 / 2 / 2 / 2 / 2 := by
    simp only [Nat.div_div_eq_div_mul]
  rw [h1, h2, h3]
  simp only [Nat.and_div_two]

/-- Python's (x & 0xff00) >> 8 is the second-lowest byte. -/
theorem pyAnd_65280_div (v : Int) (h0 : 0 ≤ v) : pyAnd v 65280 / 256 = v / 256 % 256 := by
  obtain ⟨n, rfl⟩ := Int.eq_ofNat_of_zero_le h0
  show Int.ofNat (n &&& 65280) / 256 = Int.ofNat n / 256 % 256
  have h : (n &&& 65280) / 256 = n / 256 % 256 := by
    rw [and_div_256]
    norm_num
    have := Nat.and_pow_two_sub_one_eq_mod (n / 256) 8
    norm_num at this
    exact this
  have h2 : Int.ofNat (n &&& 65280) / 256 = Int.ofNat ((n &&& 65280) / 256) := by
    simp only [Int.ofNat_eq_natCast]
    push_cast [Int.ofNat_tdiv]
    omega
  rw [h2, h]
  simp only [Int.ofNat_eq_natCast]
  push_cast
  omega

/-- boolInt is zero or one. -/
theorem boolInt_bounds (b : Bool) : 0 ≤ boolInt b ∧ boolInt b ≤ 1 := by
  cases b <;> simp [boolInt]

/-- An in-range index resolves to its own toNat. -/
theorem pyIndex_of_bounds {i : Int} (h0 : 0 ≤ i) (h1 : i < 65536) :
    pyIndex i = some i.toNat := by
  simp [pyIndex, h0, h1]

/-- Reading an in-range address. -/
theorem readMem_of_bounds (st : SystemState) {i : Int} (h0 : 0 ≤ i) (h1 : i < 65536) :
    readMem st i = some (st.memory i.toNat) := by
  simp [readMem, pyIndex_of_bounds h0 h1]

/-- Writing at an in-range address. -/
theorem writeMem_of_bounds (st : SystemState) {i : Int} (v : Int)
    (h0 : 0 ≤ i) (h1 : i < 65536) :
    writeMem st i v =
      some { st with memory := fun j => if j = i.toNat then v else st.memory j } := by
  simp [writeMem, pyIndex_of_bounds h0 h1]


/-- The xor chain of push_psw assembles exactly the layout byte. -/
theorem psw_xor_chain (c p a z s : Bool) :
    pyXor (pyXor (pyXor (pyXor (pyXor 2 (boolInt c * 1)) (boolInt p * 4))
        (boolInt a * 16)) (boolInt z * 64)) (boolInt s * 128) =
      128 * boolInt s + 64 * boolInt z + 16 * boolInt a + 4 * boolInt p + 2 + boolInt c := by
  cases c <;> cases p <;> cases a <;> cases z <;> cases s <;> rfl

/-- The PSW byte is a byte. -/
theorem psw_byte_bounds (st : SystemState) : 0 ≤ psw_byte st ∧ psw_byte st < 256 := by
  unfold psw_byte
  cases st.s <;> cases st.z <;> cases st.ac <;> cases st.p <;> cases st.cy <;> simp [boolInt]

/-- Decoding the PSW byte recovers each flag. -/
theorem psw_byte_bits (st : SystemState) :
    (pyAnd (psw_byte st) 1 != 0) = st.cy ∧
    (pyAnd (psw_byte st) 4 != 0) = st.p ∧
    (pyAnd (psw_byte st) 16 != 0) = st.ac ∧
    (pyAnd (psw_byte st) 64 != 0) = st.z ∧
    (pyAnd (psw_byte st) 128 != 0) = st.s := by
  unfold psw_byte
  cases st.s <;> cases st.z <;> cases st.ac <;> cases st.p <;> cases st.cy <;>
    exact ⟨rfl, rfl, rfl, rfl, rfl⟩

/-- Bounded facts about the nibble masks of daa, decided once. -/
theorem pyAnd_15_of_lt (n : Nat) (h : n < 512) : pyAnd (n : Int) 15 = (n : Int) % 16 := by
  revert h
  revert n
  decide

/-- The daa high-nibble mask on a bounded value. -/
theorem pyAnd_240_of_lt (n : Nat) (h : n < 512) :
    pyAnd (n : Int) 240 = ((n : Int) % 256) / 16 * 16 := by
  revert h
  revert n
  decide

/-- The daa low-nibble carry test on a bounded value. -/
theorem pyAnd_16_ne_of_lt (n : Nat) (h : n < 64) :
    (pyAnd (n : Int) 16 != 0) = decide (16 ≤ (n : Int) % 32) := by
  revert h
  revert n
  decide

/-- The daa high-nibble carry test on a bounded value. -/
theorem pyAnd_256_ne_of_lt (n : Nat) (h : n < 512) :
    (pyAnd (n : Int) 256 != 0) = decide (256 ≤ (n : Int)) := by
  revert h
  revert n
  decide

/-- The sign-bit test on a bounded value. -/
theorem pyAnd_128_ne_of_lt (n : Nat) (h : n < 512) :
    (pyAnd (n : Int) 128 != 0) = decide (128 ≤ (n : Int) % 256) := by
  revert h
  revert n
  decide

end Emu8080

namespace Emu8080

/-- set_stack_top at an in-range SP is a masked write at SP. -/
theorem set_stack_top_of_bounds (st : SystemState) (v : Int)
    (h0 : 0 ≤ st.sp) (h1 : st.sp < 65536) :
    set_stack_top st v =
      some { st with memory := fun j => if j = st.sp.toNat then v % 256 else st.memory j } := by
  unfold set_stack_top
  rw [get_int_TC_eq_emod, writeMem_of_bounds st _ h0 h1]

/-- Table entry of RST 0. -/
theorem dict_rst_c7 : instruction_dict_8080 0xc7 = some (.op (rst 0x00)) := rfl

/-- Table entry of RST 1. -/
theorem dict_rst_cf : instruction_dict_8080 0xcf = some (.op (rst 0x08)) := rfl

/-- Table entry of RST 2. -/
theorem dict_rst_d7 : instruction_dict_8080 0xd7 = some (.op (rst 0x10)) := rfl

/-- Table entry of RST 3. -/
theorem dict_rst_df : instruction_dict_8080 0xdf = some (.op (rst 0x18)) := rfl

/-- Table entry of RST 4. -/
theorem dict_rst_e7 : instruction_dict_8080 0xe7 = some (.op (rst 0x20)) := rfl

/-- Table entry of RST 5. -/
theorem dict_rst_ef : instruction_dict_8080 0xef = some (.op (rst 0x28)) := rfl

/-- Table entry of RST 6. -/
theorem dict_rst_f7 : instruction_dict_8080 0xf7 = some (.op (rst 0x30)) := rfl

/-- Table entry of RST 7. -/
theorem dict_rst_ff : instruction_dict_8080 0xff = some (.op (rst 0x38)) := rfl

set_option maxHeartbeats 1000000 in
/-- C5: interrupt injection.  With interrupts disabled the whole state
is untouched.  With interrupts enabled, interrupt(0xC7 + 8n) disables
them and runs the RST handler with no extra PC advance: the current PC
is pushed (high byte at SP-1, low byte at SP-2, SP decremented by 2)
and PC becomes the target n*8. -/
theorem C5_interrupt_semantics :
    (∀ (op : Int) (st : SystemState), st.interrupt_enabled = false →
      interrupt op st = some st) ∧
    (∀ (st : SystemState) (n : Nat), n < 8 → st.interrupt_enabled = true →
      0 ≤ st.pc → st.pc < 65536 → 2 ≤ st.sp → st.sp < 65536 →
      ∃ st', interrupt (0xc7 + 8 * (n : Int)) st = some st' ∧
        st'.interrupt_enabled = false ∧
        st'.sp = st.sp - 2 ∧
        st'.pc = 8 * (n : Int) ∧
        st'.memory (st.sp - 1).toNat = st.pc / 256 ∧
        st'.memory (st.sp - 2).toNat = st.pc % 256 ∧
        (∀ j : Nat, j ≠ (st.sp - 1).toNat → j ≠ (st.sp - 2).toNat →
          st'.memory j = st.memory j) ∧
        st'.a = st.a ∧ st'.b = st.b ∧ st'.c = st.c ∧ st'.d = st.d ∧
        st'.e = st.e ∧ st'.h = st.h ∧ st'.l = st.l ∧
        st'.z = st.z ∧ st'.s = st.s ∧ st'.p = st.p ∧
        st'.cy = st.cy ∧ st'.ac = st.ac) := by
  constructor
  · intro op st hie
    simp [interrupt, get_flag, hie]
  · intro st n hn hie hpc0 hpc1 hsp0 hsp1
    interval_cases n <;>
    · norm_num
      simp only [interrupt, get_flag, hie, if_pos, set_interrupt_enabled,
        set_single_flag]
      simp only [dict_rst_c7, dict_rst_cf, dict_rst_d7, dict_rst_df,
        dict_rst_e7, dict_rst_ef, dict_rst_f7, dict_rst_ff]
      simp (disch := first | omega | (simp only []; omega)) [rst, push,
        get_high_byte, get_low_byte, decrement_register, get_register_value,
        set_register_raw, set_stack_top_of_bounds, set_register_value,
        get_int_TC_word_eq_emod, pyAnd_255_eq_emod, pyAnd_65280_div]
      try refine ⟨_, rfl, ?_⟩
      repeat' apply And.intro
      all_goals first | rfl | omega

end Emu8080

namespace Emu8080


/-- C5 witness: the theorem applied with interrupts disabled at the
reset state, and with interrupts enabled at RST 2 from PC = 0x1234. -/
theorem C5_witness :
    interrupt 0xd7 initial_state = some initial_state ∧
    ∃ st', interrupt (0xc7 + 8 * ((2 : Nat) : Int)) state_int_enabled = some st' ∧
      st'.interrupt_enabled = false ∧
      st'.sp = state_int_enabled.sp - 2 ∧
      st'.pc = 8 * ((2 : Nat) : Int) ∧
      st'.memory (state_int_enabled.sp - 1).toNat = state_int_enabled.pc / 256 ∧
      st'.memory (state_int_enabled.sp - 2).toNat = state_int_enabled.pc % 256 := by
  constructor
  · exact C5_interrupt_semantics.1 0xd7 initial_state rfl
  · obtain ⟨st', h1, h2, h3, h4, h5, h6, _⟩ :=
      C5_interrupt_semantics.2 state_int_enabled 2 (by decide) rfl
        (by decide) (by decide) (by decide) (by decide)
    exact ⟨st', h1, h2, h3, h4, h5, h6⟩

end Emu8080

namespace Emu8080

/-- Int-level wrapper of the bounded low-nibble mask fact. -/
theorem pyAnd_15_eq {v : Int} (h0 : 0 ≤ v) (h1 : v < 512) : pyAnd v 15 = v % 16 := by
  obtain ⟨n, rfl⟩ := Int.eq_ofNat_of_zero_le h0
  exact pyAnd_15_of_lt n (by exact_mod_cast h1)

/-- Int-level wrapper of the bounded high-nibble mask fact. -/
theorem pyAnd_240_eq {v : Int} (h0 : 0 ≤ v) (h1 : v < 512) :
    pyAnd v 240 = (v % 256) / 16 * 16 := by
  obtain ⟨n, rfl⟩ := Int.eq_ofNat_of_zero_le h0
  exact pyAnd_240_of_lt n (by exact_mod_cast h1)

/-- Int-level wrapper of the bounded low-nibble carry test. -/
theorem pyAnd_16_ne_eq {v : Int} (h0 : 0 ≤ v) (h1 : v < 64) :
    (pyAnd v 16 != 0) = decide (16 ≤ v % 32) := by
  obtain ⟨n, rfl⟩ := Int.eq_ofNat_of_zero_le h0
  exact pyAnd_16_ne_of_lt n (by exact_mod_cast h1)

/-- Int-level wrapper of the bounded high-nibble carry test. -/
theorem pyAnd_256_ne_eq {v : Int} (h0 : 0 ≤ v) (h1 : v < 512) :
    (pyAnd v 256 != 0) = decide (256 ≤ v) := by
  obtain ⟨n, rfl⟩ := Int.eq_ofNat_of_zero_le h0
  exact pyAnd_256_ne_of_lt n (by exact_mod_cast h1)

/-- Int-level wrapper of the bounded sign-bit test. -/
theorem pyAnd_128_ne_eq {v : Int} (h0 : 0 ≤ v) (h1 : v < 512) :
    (pyAnd v 128 != 0) = decide (128 ≤ v % 256) := by
  obtain ⟨n, rfl⟩ := Int.eq_ofNat_of_zero_le h0
  exact pyAnd_128_ne_of_lt n (by exact_mod_cast h1)

/-- Parity only depends on the low byte. -/
theorem has_even_parity_mod (v : Int) : has_even_parity (v % 256) = has_even_parity v := by
  unfold has_even_parity
  rw [get_int_TC_eq_emod, get_int_TC_eq_emod]
  have h : v % 256 % 256 = v % 256 := by omega
  rw [h]

/-- A step whose fetched opcode has a callable entry runs that
operation and advances PC by its returned count. -/
theorem step_eq (st : SystemState) (op : Int)
    (f : SystemState → Option (SystemState × Int))
    (hfetch : get_current_opcode st = some op)
    (hop : instruction_dict_8080 op = some (.op f)) :
    step st = (f st).map fun r => increase_pc r.1 r.2 := by
  simp only [step, emulate_operation, hfetch, hop, Option.bind_eq_bind,
    Option.some_bind]
  cases f st with
  | none => rfl
  | some r => rfl

/-- Table entry of DAA. -/
theorem dict_daa : instruction_dict_8080 0x27 = some (.op daa) := rfl


/-- set_flags with Z, S, P (the ac request is ignored by the code). -/
theorem set_flags_zsp (st : SystemState) (v : Int) :
    set_flags st v [.z, .s, .p] =
      { st with z := pyAnd v 255 == 0, s := pyAnd v 128 != 0,
                p := has_even_parity v } := rfl

/-- set_flags with Z, S, P, AC: identical to Z, S, P because the ac
branch is commented out in the source. -/
theorem set_flags_zspac (st : SystemState) (v : Int) :
    set_flags st v [.z, .s, .p, .ac] =
      { st with z := pyAnd v 255 == 0, s := pyAnd v 128 != 0,
                p := has_even_parity v } := rfl

/-- set_flags with all five flags requested: ac is still ignored. -/
theorem set_flags_all (st : SystemState) (v : Int) :
    set_flags st v [.z, .s, .p, .cy, .ac] =
      { st with z := pyAnd v 255 == 0, s := pyAnd v 128 != 0,
                p := has_even_parity v, cy := decide (v > 255) } := rfl

set_option maxHeartbeats 2000000 in
/-- The daa handler realises the claim's algorithm on any in-range
accumulator. -/
theorem daa_eq (st : SystemState) (ha0 : 0 ≤ st.a) (ha1 : st.a < 256) :
    daa st = some ({ st with
      a := (daa_claim st.a st.ac st.cy).1,
      ac := (daa_claim st.a st.ac st.cy).2.1,
      cy := (daa_claim st.a st.ac st.cy).2.2,
      z := decide ((daa_claim st.a st.ac st.cy).1 = 0),
      s := decide (128 ≤ (daa_claim st.a st.ac st.cy).1),
      p := has_even_parity (daa_claim st.a st.ac st.cy).1 }, 1) := by
  obtain ⟨a0, b0, c0, d0, e0, h0, l0, sp0, pc0, z0, s0, p0, cy0, ac0, ie0, mem0⟩ := st
  simp only at ha0 ha1
  unfold daa daa_claim
  simp +decide only [get_register_value, get_flag, Option.some_bind,
    Option.bind_eq_bind, Option.pure_def, set_single_flag, set_register_value,
    set_register_raw, set_flags_zsp]
  cases ac0 <;> cases cy0 <;>
    simp only [Bool.or_true, Bool.or_false, Bool.true_or, Bool.false_or,
      Bool.and_true, Bool.and_false, Bool.true_and, Bool.false_and,
      Bool.false_eq_true, or_true, or_false, true_or, false_or, if_true,
      if_false, eq_self_iff_true, decide_eq_true_eq] <;>
    split_ifs <;>
    (try simp (disch := omega) only [pyAnd_15_eq, pyAnd_240_eq, pyAnd_16_ne_eq,
      pyAnd_256_ne_eq, pyAnd_128_ne_eq, pyAnd_255_eq_emod, get_int_TC_eq_emod,
      decide_eq_true_eq, Option.some_bind, Option.bind_eq_bind, Option.pure_def,
      Option.some.injEq, Prod.mk.injEq, SystemState.mk.injEq,
      Bool.or_true, Bool.or_false, Bool.true_or, Bool.false_or,
      Bool.and_true, Bool.and_false, Bool.true_and, Bool.false_and] at *) <;>
    (repeat' apply And.intro) <;>
      first
      | trivial
      | omega
      | ((try simp only [← Bool.decide_and, ← Bool.decide_or]);
         first
         | (rw [decide_eq_decide]; omega)
         | (rw [eq_comm, decide_eq_true_eq]; omega)
         | (rw [decide_eq_true_eq]; omega)
         | (rw [eq_comm, decide_eq_false_iff_not]; omega)
         | (rw [decide_eq_false_iff_not]; omega))
      | (rw [← has_even_parity_mod]; done)
      | (rw [← has_even_parity_mod]; congr 1; omega)
      | (rw [← has_even_parity_mod, ← has_even_parity_mod]; done)
      | (rw [← has_even_parity_mod, ← has_even_parity_mod]; congr 1; omega)

/-- C7: a DAA step performs exactly the claim's algorithm — low-nibble
fix with AC set to the low-nibble carry (false otherwise), then
high-nibble fix with CY set, never cleared, on the high-nibble carry —
updates Z, S, P from the final value of A, advances PC by 1 and leaves
everything else untouched. -/
theorem C7_daa_semantics (st : SystemState)
    (hfetch : get_current_opcode st = some 0x27)
    (ha0 : 0 ≤ st.a) (ha1 : st.a < 256) :
    step st = some { st with
      a := (daa_claim st.a st.ac st.cy).1,
      ac := (daa_claim st.a st.ac st.cy).2.1,
      cy := (daa_claim st.a st.ac st.cy).2.2,
      z := decide ((daa_claim st.a st.ac st.cy).1 = 0),
      s := decide (128 ≤ (daa_claim st.a st.ac st.cy).1),
      p := has_even_parity (daa_claim st.a st.ac st.cy).1,
      pc := st.pc + 1 } := by
  rw [step_eq st 0x27 daa hfetch dict_daa, daa_eq st ha0 ha1]
  rfl


/-- C7 witness: the theorem applied at A = 0x9B from the reset flags. -/
theorem C7_witness :
    step state_daa_9b = some { state_daa_9b with
      a := (daa_claim state_daa_9b.a state_daa_9b.ac state_daa_9b.cy).1,
      ac := (daa_claim state_daa_9b.a state_daa_9b.ac state_daa_9b.cy).2.1,
      cy := (daa_claim state_daa_9b.a state_daa_9b.ac state_daa_9b.cy).2.2,
      z := decide ((daa_claim state_daa_9b.a state_daa_9b.ac state_daa_9b.cy).1 = 0),
      s := decide (128 ≤ (daa_claim state_daa_9b.a state_daa_9b.ac state_daa_9b.cy).1),
      p := has_even_parity (daa_claim state_daa_9b.a state_daa_9b.ac state_daa_9b.cy).1,
      pc := state_daa_9b.pc + 1 } :=
  C7_daa_semantics state_daa_9b rfl (by decide) (by decide)

end Emu8080

namespace Emu8080

/-- Table entry of PUSH PSW. -/
theorem dict_push_psw : instruction_dict_8080 0xf5 = some (.op push_psw) := rfl

/-- Table entry of POP PSW. -/
theorem dict_pop_psw : instruction_dict_8080 0xf1 = some (.op pop_psw) := rfl

/-- get_stack_top at an in-range SP. -/
theorem get_stack_top_of_bounds (st : SystemState)
    (h0 : 0 ≤ st.sp) (h1 : st.sp < 65536) :
    get_stack_top st = some (st.memory st.sp.toNat) := by
  unfold get_stack_top
  exact readMem_of_bounds st h0 h1

set_option maxHeartbeats 1000000 in
/-- A PUSH PSW step: A goes to SP-1, the assembled PSW byte to SP-2,
SP drops by 2 and PC advances by 1. -/
theorem step_push_psw (st : SystemState)
    (hfetch : get_current_opcode st = some 0xf5)
    (ha0 : 0 ≤ st.a) (ha1 : st.a < 256)
    (hsp0 : 2 ≤ st.sp) (hsp1 : st.sp < 65536) :
    step st = some { st with
      sp := st.sp - 2,
      pc := st.pc + 1,
      memory := fun j => if j = (st.sp - 2).toNat then psw_byte st
        else if j = (st.sp - 1).toNat then st.a else st.memory j } := by
  rw [step_eq st 0xf5 push_psw hfetch dict_push_psw]
  unfold push_psw push
  simp (disch := first | omega | (simp only []; omega)) only
    [get_register_value, get_flag, decrement_register, set_register_raw,
     set_stack_top_of_bounds, psw_xor_chain, Option.some_bind,
     Option.bind_eq_bind, Option.pure_def, Option.map_some, increase_pc]
  simp only [show st.sp - 1 - 1 = st.sp - 2 from by omega,
    show st.a % 256 = st.a from by omega,
    show (128 * boolInt st.s + 64 * boolInt st.z + 16 * boolInt st.ac +
        4 * boolInt st.p + 2 + boolInt st.cy) % 256 = psw_byte st from by
      have := psw_byte_bounds st
      unfold psw_byte at *
      omega,
    Option.map_some']

set_option maxHeartbeats 1000000 in
/-- A POP PSW step: the flag byte is decoded from SP, A reloaded from
SP+1, SP rises by 2 and PC advances by 1. -/
theorem step_pop_psw (st : SystemState)
    (hfetch : get_current_opcode st = some 0xf1)
    (hsp0 : 0 ≤ st.sp) (hsp1 : st.sp + 1 < 65536) :
    step st = some { st with
      a := st.memory (st.sp + 1).toNat % 256,
      cy := pyAnd (st.memory st.sp.toNat) 1 != 0,
      p := pyAnd (st.memory st.sp.toNat) 4 != 0,
      ac := pyAnd (st.memory st.sp.toNat) 16 != 0,
      z := pyAnd (st.memory st.sp.toNat) 64 != 0,
      s := pyAnd (st.memory st.sp.toNat) 128 != 0,
      sp := st.sp + 2,
      pc := st.pc + 1 } := by
  rw [step_eq st 0xf1 pop_psw hfetch dict_pop_psw]
  unfold pop_psw
  simp +decide (disch := first | omega | (simp only []; omega)) only
    [get_stack_top_of_bounds, get_register_value, increment_register,
     set_register_raw, set_register_value, get_int_TC_eq_emod,
     set_single_flag, Option.some_bind, Option.bind_eq_bind,
     Option.pure_def, Option.map_some, increase_pc, if_true, if_false,
     ite_true, ite_false]
  try simp only [show st.sp + 1 + 1 = st.sp + 2 from by omega, Option.map_some']
  try rfl

end Emu8080

namespace Emu8080

set_option maxHeartbeats 1000000 in
/-- C8: PUSH PSW followed by POP PSW restores A and all five flags
exactly and leaves SP unchanged; the PSW byte written to the stack at
SP-2 has bit7 = S, bit6 = Z, bit5 = 0, bit4 = AC, bit3 = 0, bit2 = P,
bit1 = 1, bit0 = CY.  The hypotheses place the two opcodes at PC and
PC+1, keep the stack in range, and keep the pushed bytes clear of the
POP PSW opcode cell. -/
theorem C8_psw_roundtrip (st : SystemState)
    (hf1 : get_current_opcode st = some 0xf5)
    (ha0 : 0 ≤ st.a) (ha1 : st.a < 256)
    (hsp0 : 2 ≤ st.sp) (hsp1 : st.sp < 65536)
    (hpc0 : 0 ≤ st.pc) (hpc1 : st.pc + 1 < 65536)
    (hm1 : st.memory (st.pc + 1).toNat = 0xf1)
    (hd1 : (st.sp - 1).toNat ≠ (st.pc + 1).toNat)
    (hd2 : (st.sp - 2).toNat ≠ (st.pc + 1).toNat) :
    ∃ st2, (step st).bind step = some st2 ∧
      st2.a = st.a ∧ st2.z = st.z ∧ st2.s = st.s ∧ st2.p = st.p ∧
      st2.cy = st.cy ∧ st2.ac = st.ac ∧ st2.sp = st.sp ∧ st2.pc = st.pc + 2 ∧
      ((step st).map fun st1 => st1.memory (st.sp - 2).toNat) = some (psw_byte st) := by
  rw [step_push_psw st hf1 ha0 ha1 hsp0 hsp1]
  simp only [Option.some_bind, Option.map_some']
  rw [step_pop_psw]
  · refine ⟨_, rfl, ?_, ?_, ?_, ?_, ?_, ?_, ?_, ?_, ?_⟩
    · simp only []
      split_ifs <;> omega
    · simp only []
      simp only [if_true]
      exact (psw_byte_bits st).2.2.2.1
    · simp only []
      simp only [if_true]
      exact (psw_byte_bits st).2.2.2.2
    · simp only []
      simp only [if_true]
      exact (psw_byte_bits st).2.1
    · simp only []
      simp only [if_true]
      exact (psw_byte_bits st).1
    · simp only []
      simp only [if_true]
      exact (psw_byte_bits st).2.2.1
    · simp only []
      omega
    · simp only []
      omega
    · simp only [if_true]
  · show get_current_opcode _ = some 0xf1
    unfold get_current_opcode
    rw [readMem_of_bounds _ (by simp only []; omega) (by simp only []; omega)]
    simp only []
    rw [if_neg (by omega), if_neg (by omega), hm1]
  · simp only []
    omega
  · simp only []
    omega

end Emu8080

namespace Emu8080


/-- C8 witness: the round-trip theorem applied at the concrete
PUSH PSW; POP PSW program. -/
theorem C8_witness :
    ∃ st2, (step state_psw).bind step = some st2 ∧
      st2.a = state_psw.a ∧ st2.z = state_psw.z ∧ st2.s = state_psw.s ∧
      st2.p = state_psw.p ∧ st2.cy = state_psw.cy ∧ st2.ac = state_psw.ac ∧
      st2.sp = state_psw.sp ∧ st2.pc = state_psw.pc + 2 ∧
      ((step state_psw).map fun st1 => st1.memory (state_psw.sp - 2).toNat) =
        some (psw_byte state_psw) :=
  C8_psw_roundtrip state_psw rfl (by decide) (by decide) (by decide) (by decide)
    (by decide) (by decide) (by decide) (by decide) (by decide)

end Emu8080

namespace Emu8080

/-- Python AND with a byte on the left stays at most the byte. -/
theorem pyAnd_le_left {a : Int} (x : Int) (h : 0 ≤ a) : pyAnd a x ≤ a := by
  obtain ⟨m, rfl⟩ := Int.eq_ofNat_of_zero_le h
  cases x with
  | ofNat n =>
    show (Int.ofNat (m &&& n)) ≤ Int.ofNat m
    exact Int.ofNat_le.mpr Nat.and_le_left
  | negSucc n =>
    show (Int.ofNat (m - (m &&& n))) ≤ Int.ofNat m
    exact Int.ofNat_le.mpr (Nat.sub_le _ _)

/-- Python AND of nonnegatives is nonnegative. -/
theorem pyAnd_nonneg {a : Int} (x : Int) (h : 0 ≤ a) : 0 ≤ pyAnd a x := by
  obtain ⟨m, rfl⟩ := Int.eq_ofNat_of_zero_le h
  cases x with
  | ofNat n => exact Int.ofNat_nonneg _
  | negSucc n => exact Int.ofNat_nonneg _

/-- Python OR of two bytes is a byte. -/
theorem pyOr_lt_256 {a x : Int} (ha0 : 0 ≤ a) (ha1 : a < 256)
    (hx0 : 0 ≤ x) (hx1 : x < 256) : pyOr a x < 256 := by
  obtain ⟨m, rfl⟩ := Int.eq_ofNat_of_zero_le ha0
  obtain ⟨n, rfl⟩ := Int.eq_ofNat_of_zero_le hx0
  show (Int.ofNat (m ||| n)) < 256
  have hm : m < 2 ^ 8 := by exact_mod_cast ha1
  have hn : n < 2 ^ 8 := by exact_mod_cast hx1
  exact Int.ofNat_lt.mpr (Nat.or_lt_two_pow hm hn)

/-- Python XOR of two bytes is a byte. -/
theorem pyXor_lt_256 {a x : Int} (ha0 : 0 ≤ a) (ha1 : a < 256)
    (hx0 : 0 ≤ x) (hx1 : x < 256) : pyXor a x < 256 := by
  obtain ⟨m, rfl⟩ := Int.eq_ofNat_of_zero_le ha0
  obtain ⟨n, rfl⟩ := Int.eq_ofNat_of_zero_le hx0
  show (Int.ofNat (m ^^^ n)) < 256
  have hm : m < 2 ^ 8 := by exact_mod_cast ha1
  have hn : n < 2 ^ 8 := by exact_mod_cast hx1
  exact Int.ofNat_lt.mpr (Nat.xor_lt_two_pow hm hn)

set_option maxHeartbeats 1000000 in
/-- C4 (amended): for SBB r (via the sbb handler), SBB M (sbb_m) and
SBI (sbi), A becomes (a - v - c) mod 256, but CY is set exactly when
v > a: the incoming borrow c is ignored when the borrow flag is
computed, so a borrow caused only by the carry-in is not reported. -/
theorem C4_sbb_sbi_semantics :
    (∀ (st : SystemState) (rf : Reg) (v : Int),
      get_register_value st rf = some v →
      0 ≤ st.a → st.a < 256 → 0 ≤ v → v < 256 →
      ∃ st', sbb .a rf st = some (st', 1) ∧
        st'.a = (st.a - v - boolInt st.cy) % 256 ∧
        st'.cy = decide (v > st.a)) ∧
    (∀ (st : SystemState) (v : Int),
      get_memory_by_registers st .h .l = some v →
      0 ≤ st.a → st.a < 256 → 0 ≤ v → v < 256 →
      ∃ st', sbb_m .a st = some (st', 1) ∧
        st'.a = (st.a - v - boolInt st.cy) % 256 ∧
        st'.cy = decide (v > st.a)) ∧
    (∀ (st : SystemState) (v : Int),
      get_memory_by_offset st 1 = some v →
      0 ≤ st.a → st.a < 256 → 0 ≤ v → v < 256 →
      ∃ st', sbi .a st = some (st', 2) ∧
        st'.a = (st.a - v - boolInt st.cy) % 256 ∧
        st'.cy = decide (v > st.a)) := by
  refine ⟨?_, ?_, ?_⟩
  · intro st rf v hget ha0 ha1 hv0 hv1
    unfold sbb
    rw [hget]
    simp +decide only [get_register_value, get_flag, Option.some_bind,
      Option.bind_eq_bind, Option.pure_def, set_register_value,
      set_register_raw, get_int_TC_eq_emod, set_flags_zspac, set_single_flag,
      pyAnd_255_eq_emod, if_true, if_false, ite_true, ite_false]
    refine ⟨_, rfl, ?_, rfl⟩
    cases st.cy <;> simp only [boolInt, ite_true, ite_false] <;> omega
  · intro st v hget ha0 ha1 hv0 hv1
    unfold sbb_m
    rw [hget]
    simp +decide only [get_register_value, get_flag, Option.some_bind,
      Option.bind_eq_bind, Option.pure_def, set_register_value,
      set_register_raw, get_int_TC_eq_emod, set_flags_zspac, set_single_flag,
      pyAnd_255_eq_emod, if_true, if_false, ite_true, ite_false]
    refine ⟨_, rfl, ?_, rfl⟩
    cases st.cy <;> simp only [boolInt, ite_true, ite_false] <;> omega
  · intro st v hget ha0 ha1 hv0 hv1
    unfold sbi
    rw [hget]
    simp +decide only [get_register_value, get_flag, Option.some_bind,
      Option.bind_eq_bind, Option.pure_def, set_register_value,
      set_register_raw, get_int_TC_eq_emod, set_flags_zspac, set_single_flag,
      pyAnd_255_eq_emod, if_true, if_false, ite_true, ite_false]
    refine ⟨_, rfl, ?_, rfl⟩
    cases st.cy <;> simp only [boolInt, ite_true, ite_false] <;> omega

/-- C4 witness: SBB B at A = 5, B = 3, CY = 1 gives A = 1 and CY = 0. -/
theorem C4_witness :
    ∃ st', sbb .a .b { initial_state with a := 5, b := 3, cy := true } =
        some (st', 1) ∧
      st'.a = ((5 : Int) - 3 - boolInt true) % 256 ∧
      st'.cy = decide ((3 : Int) > 5) :=
  C4_sbb_sbi_semantics.1 { initial_state with a := 5, b := 3, cy := true } .b 3
    rfl (by decide) (by decide) (by decide) (by decide)

end Emu8080

namespace Emu8080


/-- Reading the accumulator always succeeds with the a field. -/
theorem get_register_value_a (st : SystemState) :
    get_register_value st .a = some st.a := rfl

set_option maxHeartbeats 1000000 in
/-- C10: each of ANA r/M, ANI, XRA r/M, XRI, ORA r/M, ORI leaves CY
false after execution, for every in-range accumulator and operand byte
and regardless of the previous CY. -/
theorem C10_logical_ops_clear_carry :
    (∀ (st : SystemState) (rf : Reg) (v : Int),
      (if rf = .m then get_memory_by_registers st .h .l
       else get_register_value st rf) = some v →
      0 ≤ st.a → st.a < 256 → 0 ≤ v → v < 256 →
      ∃ st', ana rf st = some (st', 1) ∧ st'.cy = false) ∧
    (∀ (st : SystemState) (v : Int),
      get_memory_by_offset st 1 = some v →
      ∃ st', ani st = some (st', 2) ∧ st'.cy = false) ∧
    (∀ (st : SystemState) (rf : Reg) (v : Int),
      (if rf = .m then get_memory_by_registers st .h .l
       else get_register_value st rf) = some v →
      0 ≤ st.a → st.a < 256 → 0 ≤ v → v < 256 →
      ∃ st', xra rf st = some (st', 1) ∧ st'.cy = false) ∧
    (∀ (st : SystemState) (v : Int),
      get_memory_by_offset st 1 = some v →
      0 ≤ st.a → st.a < 256 → 0 ≤ v → v < 256 →
      ∃ st', xri st = some (st', 2) ∧ st'.cy = false) ∧
    (∀ (st : SystemState) (rf : Reg) (v : Int),
      (if rf = .m then get_memory_by_registers st .h .l
       else get_register_value st rf) = some v →
      0 ≤ st.a → st.a < 256 → 0 ≤ v → v < 256 →
      ∃ st', ora rf st = some (st', 1) ∧ st'.cy = false) ∧
    (∀ (st : SystemState) (v : Int),
      get_memory_by_offset st 1 = some v →
      0 ≤ st.a → st.a < 256 → 0 ≤ v → v < 256 →
      ∃ st', ori st = some (st', 2) ∧ st'.cy = false) := by
  refine ⟨?_, ?_, ?_, ?_, ?_, ?_⟩
  · intro st rf v hop ha0 ha1 hv0 hv1
    unfold ana
    by_cases hm : rf = .m
    · subst hm
      simp +decide only [ite_true, ite_false] at hop
      simp +decide only [hop, get_register_value, Option.some_bind,
        Option.bind_eq_bind, Option.pure_def, set_register_value,
        set_register_raw, get_int_TC_eq_emod, set_flags_all, ite_true, ite_false]
      refine ⟨_, rfl, ?_⟩
      simp only [decide_eq_false_iff_not]
      have h1 := pyAnd_le_left v ha0
      omega
    · rw [if_neg hm] at hop
      simp +decide only [hm, hop, get_register_value_a, Option.some_bind,
        Option.bind_eq_bind, Option.pure_def, set_register_value,
        set_register_raw, get_int_TC_eq_emod, set_flags_all, ite_true, ite_false]
      refine ⟨_, rfl, ?_⟩
      simp only [decide_eq_false_iff_not]
      have h1 := pyAnd_le_left v ha0
      omega
  · intro st v hop
    unfold ani
    simp +decide only [hop, get_register_value, Option.some_bind,
      Option.bind_eq_bind, Option.pure_def, set_register_value,
      set_register_raw, get_int_TC_eq_emod, set_flags_zsp, set_single_flag,
      ite_true, ite_false]
    exact ⟨_, rfl, rfl⟩
  · intro st rf v hop ha0 ha1 hv0 hv1
    unfold xra
    by_cases hm : rf = .m
    · subst hm
      simp +decide only [ite_true, ite_false] at hop
      simp +decide only [hop, get_register_value, Option.some_bind,
        Option.bind_eq_bind, Option.pure_def, set_register_value,
        set_register_raw, get_int_TC_eq_emod, set_flags_all, ite_true, ite_false]
      refine ⟨_, rfl, ?_⟩
      simp only [decide_eq_false_iff_not]
      have h1 := pyXor_lt_256 ha0 ha1 hv0 hv1
      omega
    · rw [if_neg hm] at hop
      simp +decide only [hm, hop, get_register_value_a, Option.some_bind,
        Option.bind_eq_bind, Option.pure_def, set_register_value,
        set_register_raw, get_int_TC_eq_emod, set_flags_all, ite_true, ite_false]
      refine ⟨_, rfl, ?_⟩
      simp only [decide_eq_false_iff_not]
      have h1 := pyXor_lt_256 ha0 ha1 hv0 hv1
      omega
  · intro st v hop ha0 ha1 hv0 hv1
    unfold xri
    simp +decide only [hop, get_register_value, Option.some_bind,
      Option.bind_eq_bind, Option.pure_def, set_register_value,
      set_register_raw, get_int_TC_eq_emod, set_flags_all, ite_true, ite_false]
    refine ⟨_, rfl, ?_⟩
    simp only [decide_eq_false_iff_not]
    have h1 := pyXor_lt_256 ha0 ha1 hv0 hv1
    omega
  · intro st rf v hop ha0 ha1 hv0 hv1
    unfold ora
    by_cases hm : rf = .m
    · subst hm
      simp +decide only [ite_true, ite_false] at hop
      simp +decide only [hop, get_register_value, Option.some_bind,
        Option.bind_eq_bind, Option.pure_def, set_register_value,
        set_register_raw, get_int_TC_eq_emod, set_flags_all, ite_true, ite_false]
      refine ⟨_, rfl, ?_⟩
      simp only [decide_eq_false_iff_not]
      have h1 := pyOr_lt_256 ha0 ha1 hv0 hv1
      omega
    · rw [if_neg hm] at hop
      simp +decide only [hm, hop, get_register_value_a, Option.some_bind,
        Option.bind_eq_bind, Option.pure_def, set_register_value,
        set_register_raw, get_int_TC_eq_emod, set_flags_all, ite_true, ite_false]
      refine ⟨_, rfl, ?_⟩
      simp only [decide_eq_false_iff_not]
      have h1 := pyOr_lt_256 ha0 ha1 hv0 hv1
      omega
  · intro st v hop ha0 ha1 hv0 hv1
    unfold ori
    simp +decide only [hop, get_register_value, Option.some_bind,
      Option.bind_eq_bind, Option.pure_def, set_register_value,
      set_register_raw, get_int_TC_eq_emod, set_flags_all, ite_true, ite_false]
    refine ⟨_, rfl, ?_⟩
    simp only [decide_eq_false_iff_not]
    have h1 := pyOr_lt_256 ha0 ha1 hv0 hv1
    omega

/-- C10 witness: all six handlers run on A = 0xFF (operand B = 0xF0 or
immediate 0x00) with CY set, and each ends with CY clear. -/
theorem C10_witness :
    (∃ st', ana .b state_c10 = some (st', 1) ∧ st'.cy = false) ∧
    (∃ st', ani state_c10 = some (st', 2) ∧ st'.cy = false) ∧
    (∃ st', xra .b state_c10 = some (st', 1) ∧ st'.cy = false) ∧
    (∃ st', xri state_c10 = some (st', 2) ∧ st'.cy = false) ∧
    (∃ st', ora .b state_c10 = some (st', 1) ∧ st'.cy = false) ∧
    (∃ st', ori state_c10 = some (st', 2) ∧ st'.cy = false) :=
  ⟨C10_logical_ops_clear_carry.1 state_c10 .b 0xf0 rfl (by decide) (by decide)
      (by decide) (by decide),
   C10_logical_ops_clear_carry.2.1 state_c10 0 rfl,
   C10_logical_ops_clear_carry.2.2.1 state_c10 .b 0xf0 rfl (by decide) (by decide)
      (by decide) (by decide),
   C10_logical_ops_clear_carry.2.2.2.1 state_c10 0 rfl (by decide) (by decide)
      (by decide) (by decide),
   C10_logical_ops_clear_carry.2.2.2.2.1 state_c10 .b 0xf0 rfl (by decide) (by decide)
      (by decide) (by decide),
   C10_logical_ops_clear_carry.2.2.2.2.2 state_c10 0 rfl (by decide) (by decide)
      (by decide) (by decide)⟩

end Emu8080

namespace Disasm8080

/-- Every byte has a mnemonics entry: the table covers all 256 opcodes. -/
theorem mnemonics_isSome {b : Nat} (h : b < 256) : (mnemonics b).isSome := by
  unfold mnemonics
  rw [if_pos h]
  cases hq : mnemonics_table.get? b with
  | none =>
    have h2 := List.get?_eq_none.mp hq
    have hlen : mnemonics_table.length = 256 := rfl
    omega
  | some d => rfl

/-- The loop of dissassemble never fails on all-byte input whose
instructions fit, and emits one line per instruction counted by
countInstrs. -/
theorem dissassembleAux_total (blob : List Nat) (sa : Bool)
    (hb : ∀ b ∈ blob, b < 256) :
    ∀ fuel index, sizesFit blob fuel index = true →
      (dissassembleAux blob sa fuel index).map List.length =
        some (countInstrs blob fuel index) := by
  intro fuel
  induction fuel with
  | zero =>
    intro index hfit
    unfold sizesFit at hfit
    have hle : blob.length ≤ index := of_decide_eq_true hfit
    unfold dissassembleAux countInstrs
    rw [if_neg (by omega)]
    rfl
  | succ fuel ih =>
    intro index hfit
    unfold sizesFit at hfit
    unfold dissassembleAux countInstrs
    by_cases h : index < blob.length
    · rw [if_pos h] at hfit
      have hgd : blob.getD index 0 = blob.get ⟨index, h⟩ := by
        rw [List.getD_eq_get?, List.get?_eq_get h]
        rfl
      rw [hgd, Bool.and_eq_true] at hfit
      obtain ⟨hle', hrest⟩ := hfit
      have hle := of_decide_eq_true hle'
      have hbyte : blob.get ⟨index, h⟩ < 256 := hb _ (List.get_mem blob index h)
      obtain ⟨d, hd⟩ := Option.isSome_iff_exists.mp (mnemonics_isSome hbyte)
      rw [dif_pos h, if_pos h, hgd]
      simp only [hd, Option.some_bind, Option.bind_eq_bind, Option.pure_def]
      rw [if_pos hle]
      obtain ⟨ls, hls, hlen⟩ := Option.map_eq_some'.mp
        (ih (index + ((special_sizes (blob.get ⟨index, h⟩)).getD 1)) hrest)
      rw [hls]
      simp only [Option.some_bind, Option.bind_eq_bind, Option.pure_def,
        Option.map_some', List.length_cons, Option.some.injEq]
      omega
    · rw [dif_neg h, if_neg h]
      rfl

/-- C9 counterexample: the one-byte input 0xC3 is a JMP of size 3, so
the loop evaluates blob[index + 1] past the end of the input and the
disassembler raises IndexError instead of succeeding, though the claim
says no byte content (including a truncated multi-byte instruction at
the end) can make it fail. -/
theorem C9_counterexample : dissassemble [0xc3] false = none := rfl

/-- C9 (amended): on byte-valued input whose instructions all fit
(no multi-byte instruction truncated at the end), the disassembler
succeeds and produces one line per instruction, the walk advancing by
each opcode's size. -/
theorem C9_disassembler_totality :
    ∀ blob : List Nat, (∀ b ∈ blob, b < 256) →
      sizesFit blob blob.length 0 = true →
      ∃ ls, dissassembleLines blob false = some ls ∧
        ls.length = countInstrs blob blob.length 0 ∧
        dissassemble blob false = some (String.join ls) := by
  intro blob hb hfit
  obtain ⟨ls, hls, hlen⟩ := Option.map_eq_some'.mp
    (dissassembleAux_total blob false hb blob.length 0 hfit)
  refine ⟨ls, hls, hlen, ?_⟩
  unfold dissassemble dissassembleLines
  rw [hls]
  rfl

/-- C9 witness: NOP; MVI B,0xFF; JMP 0x18D4 disassembles to three
lines. -/
theorem C9_witness :
    ∃ ls, dissassembleLines [0x00, 0x06, 0xff, 0xc3, 0xd4, 0x18] false = some ls ∧
      ls.length = countInstrs [0x00, 0x06, 0xff, 0xc3, 0xd4, 0x18] 6 0 ∧
      dissassemble [0x00, 0x06, 0xff, 0xc3, 0xd4, 0x18] false =
        some (String.join ls) :=
  C9_disassembler_totality [0x00, 0x06, 0xff, 0xc3, 0xd4, 0x18] (by decide)
    (by decide)

end Disasm8080
